import Mathlib

/-!
Shallow embedding of the core of the financially-free VAHAN scraper and
data-processing pipeline, together with proofs checking the claims of the
specification against it.

Sources embedded:
* `vahan_data_extractor.py` — `VahanScraper._parse_complex_table_headers`,
  `VahanScraper.fetch_data`, `VahanScraper._fetch_one_menu_items`,
  `VahanScraper.scrape_dropdowns`, `VahanScraper.scrape_multiple_combinations`.
* `data_processor.py` — `VahanDataProcessor._clean_numeric_columns`,
  `_clean_text_columns`, `_extract_temporal_data`, `_categorize_vehicle`,
  `clean_data`, `_calculate_yoy_growth`, `_calculate_yoy_by_category`,
  `_calculate_yoy_by_state`, `_get_manufacturer_growth`.
* `src/processors/data_cleaner.py` — `DataCleaner.clean_numeric_columns`.
* `src/analytics/growth_analyzer.py` — `GrowthAnalyzer.calculate_compound_growth_rate`.

Conventions: Python/pandas floats are modelled as `ℚ` (all numerals appearing
in the data are decimal, hence exactly representable); `str(float)` rendering
is modelled by `numToStr` below, including the switch to scientific notation
for magnitudes below `1e-4` (values at or above `1e16`, which CPython also
prints scientifically, do not matter for any claim and are printed plainly).
Missing values (`NaN`) in object columns are the `Cell.null` constructor.
Pandas float division is given its IEEE semantics through `PFloat`
(finite / `inf` / `-inf` / `NaN`) where the source divides without a guard.
Python `round(_, 2)` and pandas `.round(2)` are modelled with `round` on `ℚ`
(round-half-up instead of round-half-even; the two differ only on exact
half-hundredths, which no claim exercises).
-/

set_option maxRecDepth 4000

namespace Vahan

/-! ### Characters and Python-style string helpers -/

/-- Whitespace characters recognised by Python `str.strip` / `\s`. -/
def isSpaceC (c : Char) : Bool :=
  c = ' ' || c = '\t' || c = '\n' || c = '\r' || c = '\x0b' || c = '\x0c'

/-- Decimal digit test. -/
def isDigitC (c : Char) : Bool :=
  '0' ≤ c && c ≤ '9'

/-- Numeric value of a digit character. -/
def digitVal (c : Char) : ℕ := c.toNat - 48

/-- Character of a digit value. -/
def digitChar (n : ℕ) : Char := Char.ofNat (48 + n)

/-- Python `str.strip()` on a character list. -/
def stripL (l : List Char) : List Char :=
  ((l.dropWhile isSpaceC).reverse.dropWhile isSpaceC).reverse

/-- Python `str.strip()`. -/
def pyStrip (s : String) : String := ⟨stripL s.toList⟩

/-- ASCII upper-casing of one character, as Python `str.upper()` does on the
ASCII text appearing in this data set. -/
def upChar (c : Char) : Char :=
  if 'a' ≤ c && c ≤ 'z' then Char.ofNat (c.toNat - 32) else c

/-- Python `str.upper()`. -/
def upperStr (s : String) : String := ⟨s.toList.map upChar⟩

/-- Does `pat` occur at the start of `l`? -/
def startsWithL : List Char → List Char → Bool
  | [], _ => true
  | _ :: _, [] => false
  | p :: ps, c :: cs => p = c && startsWithL ps cs

/-- Does `pat` occur anywhere in `l`? (Python `pat in s`.) -/
def hasSubL (pat : List Char) : List Char → Bool
  | [] => pat.isEmpty
  | c :: cs => startsWithL pat (c :: cs) || hasSubL pat cs

/-- Python substring containment `pat in s`. -/
def hasSubStr (pat s : String) : Bool := hasSubL pat.toList s.toList

/-- Collapse every run of whitespace to a single space; the flag records
whether the previous character was part of a whitespace run. Models
`re.sub(r'\s+', ' ', text)`. -/
def collapseWsAux : Bool → List Char → List Char
  | _, [] => []
  | prevSp, c :: cs =>
    if isSpaceC c then
      if prevSp then collapseWsAux true cs else ' ' :: collapseWsAux true cs
    else c :: collapseWsAux false cs

/-- Header-cell text normalisation of `_parse_complex_table_headers`:
`cell.get_text(strip=True)` followed by `re.sub(r'\s+', ' ', text)`. -/
def normalizeCell (s : String) : String := ⟨collapseWsAux false (stripL s.toList)⟩

/-- Python `str.replace('nan', '0')`: left-to-right, non-overlapping. -/
def replaceNanL : List Char → List Char
  | 'n' :: 'a' :: 'n' :: rest => '0' :: replaceNanL rest
  | c :: rest => c :: replaceNanL rest
  | [] => []

/-! ### Kernel-reducible rational arithmetic

The `Rat` field operations of Batteries are `@[irreducible]`, so concrete
evaluation by `decide` needs wrappers built from `Rat.divInt`. The lemmas
`qAdd_eq` … below identify them with the ordinary operations, and all
abstract reasoning goes through those. -/

/-- Addition on `ℚ` through `Rat.divInt` (kernel-reducible). -/
def qAdd (a b : ℚ) : ℚ := Rat.divInt (a.num * b.den + b.num * a.den) (a.den * b.den)

/-- Subtraction on `ℚ` through `Rat.divInt` (kernel-reducible). -/
def qSub (a b : ℚ) : ℚ := Rat.divInt (a.num * b.den - b.num * a.den) (a.den * b.den)

/-- Multiplication on `ℚ` through `Rat.divInt` (kernel-reducible). -/
def qMul (a b : ℚ) : ℚ := Rat.divInt (a.num * b.num) (a.den * b.den)

/-- Division on `ℚ` through `Rat.divInt` (kernel-reducible). -/
def qDiv (a b : ℚ) : ℚ := Rat.divInt (a.num * b.den) (a.den * b.num)

/-- Negation on `ℚ` through `Rat.divInt` (kernel-reducible). -/
def qNeg (a : ℚ) : ℚ := Rat.divInt (-a.num) a.den

/-- Sum of a list of rationals through `qAdd` (kernel-reducible). -/
def qSum (l : List ℚ) : ℚ := l.foldr qAdd 0

/-! ### Parsing numerals (`pd.to_numeric(..., errors='coerce')` / `float`) -/

/-- Fold decimal digits into a natural number. -/
def digitsToNat (l : List Char) : ℕ := l.foldl (fun a c => a * 10 + digitVal c) 0

/-- Value of a parsed numeral `d * 10 ^ e`, assembled with core `Rat`
operations so that the kernel can evaluate it. -/
def ratOfParts (d : ℕ) (e : ℤ) : ℚ :=
  if 0 ≤ e then mkRat (d * Nat.pow 10 e.toNat : ℕ) 1 else mkRat d (Nat.pow 10 (-e).toNat)

/-- Parse the exponent part after `e`/`E`: optional sign, then digits only. -/
def parseExpPart (l : List Char) : Option ℤ :=
  let sgn : ℤ := if l.head? = some '-' then -1 else 1
  let rest := if l.head? = some '-' || l.head? = some '+' then l.tail else l
  let ds := rest.takeWhile isDigitC
  let rest' := rest.dropWhile isDigitC
  if ds.isEmpty || !rest'.isEmpty then none else some (sgn * (digitsToNat ds : ℤ))

/-- Parse an unsigned mantissa `digits [ . digits ]` (at least one digit),
returning the concatenated digit value, the fractional length, and the
unconsumed rest: the mantissa value is `digits * 10 ^ (-fracLen)`. -/
def parseMant (l : List Char) : Option (ℕ × ℕ × List Char) :=
  let ip := l.takeWhile isDigitC
  let r1 := l.dropWhile isDigitC
  if r1.head? = some '.' then
    let r2 := r1.tail
    let fp := r2.takeWhile isDigitC
    let r3 := r2.dropWhile isDigitC
    if ip.isEmpty && fp.isEmpty then none
    else some (digitsToNat (ip ++ fp), fp.length, r3)
  else if ip.isEmpty then none else some (digitsToNat ip, 0, r1)

/-- Parse an unsigned numeral with optional exponent. -/
def parseUnsigned (l : List Char) : Option ℚ :=
  match parseMant l with
  | none => none
  | some (d, fl, rest) =>
    if rest = [] then some (ratOfParts d (-(fl : ℤ)))
    else if rest.head? = some 'e' ∨ rest.head? = some 'E' then
      (parseExpPart rest.tail).map (fun e => ratOfParts d (e - (fl : ℤ)))
    else none

/-- Model of `pd.to_numeric(s, errors='coerce')` on the decimal numerals this
pipeline produces: surrounding whitespace, optional sign, digits with an
optional fractional part and exponent. (The `inf`/`nan` literal spellings
accepted by CPython are treated as unparseable; the cleaners under study
either rewrite them away or default them to 0 anyway.) `none` is `NaN`. -/
def pyToNumeric (s : String) : Option ℚ :=
  let l := stripL s.toList
  if l.head? = some '-' then (parseUnsigned l.tail).map qNeg
  else if l.head? = some '+' then parseUnsigned l.tail
  else parseUnsigned l

/-! ### Rendering floats back to strings (`astype(str)` on a float column) -/

/-- Decimal digits of a natural number, most significant first (fuel-driven). -/
def natToCharsAux : ℕ → ℕ → List Char
  | 0, _ => []
  | fuel + 1, n => if n < 10 then [digitChar n] else natToCharsAux fuel (n / 10) ++ [digitChar (n % 10)]

/-- Decimal digits of a natural number. -/
def natToChars (n : ℕ) : List Char := natToCharsAux (n + 1) n

/-- Decimal string of a natural number. -/
def natStr (n : ℕ) : String := ⟨natToChars n⟩

/-- Fractional part of a rational, via the core floor (kernel-friendly). -/
def fracPart (q : ℚ) : ℚ := qSub q (mkRat q.floor 1)

/-- Fractional digits of `q ∈ [0, 1)` by long multiplication (fuel-driven;
terminates early once the remainder is zero, which happens for every
decimal-finite rational this pipeline produces). -/
def fracChars : ℕ → ℚ → List Char
  | 0, _ => []
  | fuel + 1, q =>
    if q.num = 0 then []
    else digitChar (qMul q 10).floor.toNat :: fracChars fuel (fracPart (qMul q 10))

/-- Smallest `e` with `q * 10 ^ e ≥ 1` (fuel-driven), for `0 < q < 1`. -/
def sciExp : ℕ → ℚ → ℕ
  | 0, _ => 0
  | fuel + 1, q => if Rat.blt q 1 then sciExp fuel (qMul q 10) + 1 else 0

/-- Exponent field of CPython float repr: at least two digits. -/
def pad2 (n : ℕ) : List Char := if n < 10 then '0' :: natToChars n else natToChars n

/-- Mantissa rendering for scientific notation, `m ∈ [1, 10)`: integral
mantissas print without a decimal point (CPython: `str(1e-05) = '1e-05'`). -/
def mantToChars (m : ℚ) : List Char :=
  if (fracPart m).num = 0 then natToChars m.floor.toNat
  else natToChars m.floor.toNat ++ '.' :: fracChars 60 (fracPart m)

/-- Rendering of a positive float: scientific notation below `1e-4` as in
CPython repr, plain decimal otherwise (always with a fractional part). -/
def posToChars (q : ℚ) : List Char :=
  if Rat.blt q (mkRat 1 10000) then
    mantToChars (qMul q (mkRat (Int.ofNat (Nat.pow 10 (sciExp 400 q))) 1)) ++ 'e' :: '-' :: pad2 (sciExp 400 q)
  else
    natToChars q.floor.toNat ++ '.' :: (if (fracPart q).num = 0 then ['0'] else fracChars 60 (fracPart q))

/-- Model of Python `str()` on the float values this pipeline produces. -/
def numToStr (q : ℚ) : String :=
  if q.num = 0 then "0.0"
  else if q.num < 0 then ⟨'-' :: posToChars (qNeg q)⟩
  else ⟨posToChars q⟩

/-! ### Cells and the two numeric-column cleaners -/

/-- One cell of a pandas object column: a string, a float, or missing
(`NaN`). -/
inductive Cell where
  | str (s : String)
  | num (q : ℚ)
  | null
deriving DecidableEq, Repr

/-- Pandas `astype(str)` on one cell (`NaN` prints as the string `nan`). -/
def cellToStr : Cell → String
  | .str s => s
  | .num q => numToStr q
  | .null => "nan"

/-- Numeric cleaning of one cell in `VahanDataProcessor._clean_numeric_columns`:
`astype(str)`, remove `,` and spaces, replace every `-` by `0` and every `nan`
by `0`, `pd.to_numeric(errors='coerce')`, `fillna(0)`. -/
def cleanNumericValDP (c : Cell) : ℚ :=
  let l := (cellToStr c).toList
  let l1 := l.filter (fun ch => ch ≠ ',')
  let l2 := l1.filter (fun ch => ch ≠ ' ')
  let l3 := l2.map (fun ch => if ch = '-' then '0' else ch)
  let l4 := replaceNanL l3
  (pyToNumeric ⟨l4⟩).getD 0

/-- Cell-level result of `VahanDataProcessor._clean_numeric_columns`. -/
def cleanNumericCellDP (c : Cell) : Cell := .num (cleanNumericValDP c)

/-- Numeric cleaning of one cell in `DataCleaner.clean_numeric_columns`
(`src/processors/data_cleaner.py`): `astype(str)`, remove `,`, replace the
exact strings `''`, `'nan'`, `'None'`, `'-'` by `NaN`,
`pd.to_numeric(errors='coerce')`, `fillna(0)`. -/
def cleanNumericValDC (c : Cell) : ℚ :=
  let l1 := (cellToStr c).toList.filter (fun ch => ch ≠ ',')
  if (⟨l1⟩ : String) ∈ (["", "nan", "None", "-"] : List String) then 0
  else (pyToNumeric ⟨l1⟩).getD 0

/-- Cell-level result of `DataCleaner.clean_numeric_columns`. -/
def cleanNumericCellDC (c : Cell) : Cell := .num (cleanNumericValDC c)

/-! ### Growth engine: data model -/

/-- Python `round(x, 2)` (and pandas `.round(2)`), half-up variant; built from
kernel-reducible operations. -/
def roundHalfUp (q : ℚ) : ℤ := (qAdd q (mkRat 1 2)).floor

/-- Round to two decimal places. -/
def round2 (q : ℚ) : ℚ := mkRat (roundHalfUp (qMul q 100)) 100

/-- Helper of `pdUnique`: keep each element not seen before, tracking the
seen elements in an accumulator (structural, hence kernel-reducible). -/
def pdUniqueAux {α : Type} [DecidableEq α] : List α → List α → List α
  | _, [] => []
  | seen, x :: xs =>
    if x ∈ seen then pdUniqueAux seen xs else x :: pdUniqueAux (x :: seen) xs

/-- First-occurrence de-duplication, as pandas `Series.unique()` returns
values in order of first appearance. -/
def pdUnique {α : Type} [DecidableEq α] (l : List α) : List α := pdUniqueAux [] l

/-- One cleaned data row, restricted to the fields the growth engine reads:
the `Vehicle_Category`, `State` and `Vehicle Class` grouping keys, the
(non-null) `Year`, and the summed `TOTAL` column. Rows whose grouping key or
year is missing are skipped by the source (`pd.isna` guards / `groupby`
dropping `NaN` keys) and are therefore not represented. -/
structure CRow where
  category : String
  state : String
  vclass : String
  year : ℤ
  total : ℚ
deriving DecidableEq, Repr

/-- Years column of a data set. -/
def yearsOf (rows : List CRow) : List ℤ := rows.map (·.year)

/-- Distinct years, in order of first appearance. -/
def distinctYears (rows : List CRow) : List ℤ := pdUnique (yearsOf rows)

/-- Distinct years in ascending order: the index produced by
`groupby('Year')` followed by `sort_values('Year')`. -/
def sortedYears (rows : List CRow) : List ℤ :=
  (distinctYears rows).insertionSort (· ≤ ·)

/-- Sum of the `TOTAL` column over the rows of one year. -/
def yearSum (rows : List CRow) (y : ℤ) : ℚ :=
  qSum ((rows.filter (fun r => r.year = y)).map (·.total))

/-- The `groupby('Year')['TOTAL'].sum()` table, sorted by year ascending. -/
def yearlyTotals (rows : List CRow) : List (ℤ × ℚ) :=
  (sortedYears rows).map (fun y => (y, yearSum rows y))

/-- One adjacent-period growth record of the guarded computations
(`_calculate_yoy_by_category` / `_calculate_yoy_by_state` /
`_get_manufacturer_growth`). -/
structure GrowthRec where
  key : String
  year : ℤ
  currentValue : ℚ
  previousValue : ℚ
  growthRate : ℚ
  growthAbs : ℚ
deriving DecidableEq, Repr

/-- The guarded growth rate
`((current - previous) / previous * 100) if previous > 0 else 0`, with the
subsequent `round(growth_rate, 2)`. -/
def guardedRate (cur prev : ℚ) : ℚ :=
  if 0 < prev then round2 (qMul (qDiv (qSub cur prev) prev) 100) else 0

/-- The records produced for one grouping key from its year-total table: one
record per adjacent pair of the sorted table
(`for i in range(1, len(yearly_totals))`). -/
def adjacentRecords (k : String) (ys : List (ℤ × ℚ)) : List GrowthRec :=
  (ys.zip ys.tail).map (fun p =>
    { key := k, year := p.2.1, currentValue := p.2.2, previousValue := p.1.2,
      growthRate := guardedRate p.2.2 p.1.2,
      growthAbs := qSub p.2.2 p.1.2 })

/-- Shared shape of `_calculate_yoy_by_category` (key = `Vehicle_Category`)
and `_calculate_yoy_by_state` (key = `State`): iterate the unique keys in
order of first appearance, group the rows of each key by year, sort, and emit
one record per adjacent year pair. -/
def calcYoyByKey (keyOf : CRow → String) (rows : List CRow) : List GrowthRec :=
  (pdUnique (rows.map keyOf)).flatMap
    (fun k => adjacentRecords k (yearlyTotals (rows.filter (fun r => keyOf r = k))))

/-- `VahanDataProcessor._calculate_yoy_by_category`. -/
def calcYoyByCategory (rows : List CRow) : List GrowthRec :=
  calcYoyByKey (·.category) rows

/-- `VahanDataProcessor._calculate_yoy_by_state`. -/
def calcYoyByState (rows : List CRow) : List GrowthRec :=
  calcYoyByKey (·.state) rows

/-- `VahanDataProcessor._get_manufacturer_growth`: for each `Vehicle Class`
with at least two distinct years, one record comparing the latest year to the
one before it, with the same guarded rate; the collection is then sorted by
rate descending (`sort_values('YoY_Growth_Rate', ascending=False)`). -/
def manufacturerRecord (rows : List CRow) (m : String) : List GrowthRec :=
  match (yearlyTotals (rows.filter (fun r => r.vclass = m))).reverse with
  | cur :: prev :: _ =>
    [{ key := m, year := cur.1, currentValue := cur.2, previousValue := prev.2,
       growthRate := guardedRate cur.2 prev.2,
       growthAbs := qSub cur.2 prev.2 }]
  | _ => []

/-- `VahanDataProcessor._get_manufacturer_growth` over all vehicle classes. -/
def calcManufacturerGrowth (rows : List CRow) : List GrowthRec :=
  ((pdUnique (rows.map (·.vclass))).flatMap (manufacturerRecord rows)).insertionSort
    (fun a b => b.growthRate ≤ a.growthRate)

/-- A pandas float value: finite, one of the two infinities, or `NaN`.
Used where the source divides without guarding the denominator. -/
inductive PFloat where
  | fin (q : ℚ)
  | inf
  | ninf
  | nan
deriving DecidableEq, Repr

/-- Pandas semantics of
`(current - previous) / previous * 100` followed by `.round(2)`, where
`previous` comes from `shift(1)` and is `NaN` on the first row: division of a
non-zero value by zero yields a signed infinity, `0 / 0` and any operation on
`NaN` yield `NaN` — not an exception and not `0`. -/
def pandasRate (cur : ℚ) (prev : Option ℚ) : PFloat :=
  match prev with
  | none => .nan
  | some p =>
    if p = 0 then
      if 0 < qSub cur p then .inf
      else if qSub cur p < 0 then .ninf
      else .nan
    else .fin (round2 (qMul (qDiv (qSub cur p) p) 100))

/-- One row of the `_calculate_yoy_growth` result table: the year, the summed
column value, the `shift(1)` previous value, and the unguarded rate. -/
structure TotalRec where
  year : ℤ
  value : ℚ
  previousValue : Option ℚ
  growthRate : PFloat
  growthAbs : Option ℚ
deriving DecidableEq, Repr

/-- `VahanDataProcessor._calculate_yoy_growth` (the `yoy_total` metric, same
shape as `_calculate_qoq_growth`): group by year, sum, sort ascending, shift
to obtain the previous value, then compute
`(col - prev) / prev * 100` with no guard on `prev`. -/
def calcYoyTotal (rows : List CRow) : List TotalRec :=
  let ys := yearlyTotals rows
  (ys.zip (none :: ys.map (fun p => some p.2))).map (fun p =>
    { year := p.1.1, value := p.1.2, previousValue := p.2,
      growthRate := pandasRate p.1.2 p.2,
      growthAbs := p.2.map (fun pv => qSub p.1.2 pv) })

/-! ### The `VahanDataProcessor.clean_data` pipeline -/

/-- Scanner for `re.sub(r'\(\d+\)', '', s)`: the state holds the digits seen
since an opening parenthesis (in reverse) while a match is still possible.
Matching is left-to-right and non-overlapping, as in `re.sub`. -/
def stripParenAux : Option (List Char) → List Char → List Char
  | none, [] => []
  | some ds, [] => '(' :: ds.reverse
  | none, c :: rest =>
    if c = '(' then stripParenAux (some []) rest
    else c :: stripParenAux none rest
  | some ds, c :: rest =>
    if isDigitC c then stripParenAux (some (c :: ds)) rest
    else if c = ')' && !ds.isEmpty then stripParenAux none rest
    else if c = '(' then ('(' :: ds.reverse) ++ stripParenAux (some []) rest
    else ('(' :: ds.reverse) ++ c :: stripParenAux none rest

/-- Remove every `(digits)` group, as
`.str.replace(r'\(\d+\)', '', regex=True)` does on the state column. -/
def stripParenNumL (l : List Char) : List Char := stripParenAux none l

/-- First occurrence of four consecutive digits, as
`.str.extract(r'(\d{4})')` finds it. -/
def extract4 : List Char → Option ℕ
  | a :: b :: c :: d :: rest =>
    if isDigitC a && isDigitC b && isDigitC c && isDigitC d then
      some (digitVal a * 1000 + digitVal b * 100 + digitVal c * 10 + digitVal d)
    else extract4 (b :: c :: d :: rest)
  | _ => none

/-- Text cleaning of the `Vehicle Class` column
(`.str.strip().str.upper()`); the pandas `.str` accessor maps non-string
values to `NaN`. -/
def cleanVehicleClassCell : Cell → Cell
  | .str s => .str (upperStr (pyStrip s))
  | _ => .null

/-- Year extraction (`_extract_temporal_data`):
`data['Filter_Year'].astype(str).str.extract(r'(\d{4})')` followed by
`pd.to_numeric(errors='coerce')`. -/
def extractYearCell (fy : Cell) : Cell :=
  match extract4 (cellToStr fy).toList with
  | some n => .num (mkRat (Int.ofNat n) 1)
  | none => .null

/-- State extraction (`_extract_temporal_data`):
`data['Filter_State'].str.replace(r'\(\d+\)', '', regex=True).str.strip()`;
the `.str` accessor maps non-string values to `NaN`. -/
def stripStateCell : Cell → Cell
  | .str s => .str (pyStrip ⟨stripParenNumL s.toList⟩)
  | _ => .null

/-- Keyword table `VEHICLE_CATEGORIES` of `VahanDataProcessor`. -/
def categories2W : List String := ["MOTOR CYCLE", "SCOOTER", "M-CYCLE", "MOPED"]

/-- Keyword table `VEHICLE_CATEGORIES`, `3W` entry. -/
def categories3W : List String := ["AUTO RICKSHAW", "3W", "THREE WHEELER"]

/-- Keyword table `VEHICLE_CATEGORIES`, `4W+` entry. -/
def categories4W : List String := ["CAR", "TRUCK", "BUS", "LMV", "MMV", "HMV"]

/-- Keyword scan of `_categorize_vehicle` over an upper-cased class name, in
the dictionary order `2W`, `3W`, `4W+`, falling back to `Other`. -/
def categorizeStr (u : String) : String :=
  if categories2W.any (fun k => hasSubStr k u) then "2W"
  else if categories3W.any (fun k => hasSubStr k u) then "3W"
  else if categories4W.any (fun k => hasSubStr k u) then "4W+"
  else "Other"

/-- `VahanDataProcessor._categorize_vehicle` on the `Vehicle Class` cell:
missing or empty gives `Unknown`; otherwise `str(value).upper()` is scanned
for the category keywords. -/
def categorizeVehicle : Cell → String
  | .null => "Unknown"
  | .str s => if s = "" then "Unknown" else categorizeStr (upperStr s)
  | .num q => categorizeStr (upperStr (numToStr q))

/-- One row of the frame handled by `clean_data`, with the columns that
pipeline touches: the untouched metadata column `S No`, the `Vehicle Class`
text column, the known numeric columns (as an ordered list of cells), the
`Filter_Year` / `Filter_State` tags, and the derived columns. On raw input
the derived columns are absent, represented as `null`. -/
@[ext]
structure Row where
  sNo : Cell
  vehicleClass : Cell
  numerics : List Cell
  filterYear : Cell
  filterState : Cell
  year : Cell
  state : Cell
  quarter : Cell
  yearQuarter : Cell
  vehicleCategory : Cell
deriving DecidableEq, Repr

/-- Is every cell of the row missing? (`dropna(how='all')` drops exactly
these rows.) -/
def Row.allNull (r : Row) : Bool :=
  r.sNo = Cell.null && r.vehicleClass = Cell.null && r.numerics.all (· = Cell.null) &&
  r.filterYear = Cell.null && r.filterState = Cell.null && r.year = Cell.null &&
  r.state = Cell.null && r.quarter = Cell.null && r.yearQuarter = Cell.null &&
  r.vehicleCategory = Cell.null

/-- Rendering of the `Year` column by `astype(str)` when `Year_Quarter` is
built: `pd.to_numeric(errors='coerce')` yields an `int64` column exactly when
every `Filter_Year` produced a year (no `NaN` in the column), and then
`astype(str)` prints plain integers (`'2023'`); with any missing year the
column is `float64` and prints float text (`'2023.0'` / `'nan'`). The
`intDtype` flag carries that column-level dtype into the row-level
rendering. -/
def yearColStr (intDtype : Bool) (yr : Cell) : String :=
  match intDtype, yr with
  | true, .num q => natStr q.num.toNat
  | _, c => cellToStr c

/-- Row-wise action of `VahanDataProcessor.clean_data` after the
`dropna(how='all')`: numeric cleaning, `Vehicle Class` text cleaning, the
temporal extraction (`Year`, `State`, the constant `Quarter = 'Q4'` and
`Year_Quarter = Year.astype(str) + '_Q4'`, with the `Year` dtype decided by
the whole column via `intYear`), and the category assignment from the
cleaned `Vehicle Class`. The `Filter_Year` / `Filter_State` / `S No`
columns are not modified by any step. -/
def cleanRow (intYear : Bool) (r : Row) : Row :=
  let vc := cleanVehicleClassCell r.vehicleClass
  let yr := extractYearCell r.filterYear
  { r with
    numerics := r.numerics.map cleanNumericCellDP
    vehicleClass := vc
    year := yr
    state := stripStateCell r.filterState
    quarter := .str "Q4"
    yearQuarter := .str (yearColStr intYear yr ++ "_Q4")
    vehicleCategory := .str (categorizeVehicle vc) }

/-- Does every kept row's `Filter_Year` yield a year, so that the extracted
`Year` column has dtype `int64`? -/
def yearsAllParse (rows : List Row) : Bool :=
  rows.all (fun r => extractYearCell r.filterYear ≠ Cell.null)

/-- `VahanDataProcessor.clean_data`: drop the all-missing rows, then apply
the column transformations (all of which act row by row, except for the
`Year` dtype, which depends on the whole kept column). -/
def cleanData (rows : List Row) : List Row :=
  (rows.filter (fun r => !r.allNull)).map
    (cleanRow (yearsAllParse (rows.filter (fun r => !r.allNull))))

/-! ### The `DataCleaner.clean_all` pipeline -/

/-- ASCII letter test, the word/boundary notion of Python `str.title()`
(letters form words; digits and punctuation are uncased and break words). -/
def isAlphaC (c : Char) : Bool :=
  ('A' ≤ c && c ≤ 'Z') || ('a' ≤ c && c ≤ 'z')

/-- ASCII lower-casing of one character. -/
def lowChar (c : Char) : Char :=
  if 'A' ≤ c && c ≤ 'Z' then Char.ofNat (c.toNat + 32) else c

/-- Python `str.title()` scanner: a letter starting a word (previous
character not a letter) is upper-cased, every other letter lower-cased. -/
def titleAux : Bool → List Char → List Char
  | _, [] => []
  | prevAlpha, c :: rest =>
    (if isAlphaC c then (if prevAlpha then lowChar c else upChar c) else c)
      :: titleAux (isAlphaC c) rest

/-- Python `str.title()` (ASCII letters). -/
def titleStr (s : String) : String := ⟨titleAux false s.toList⟩

/-- Scanner for `re.sub(r'\([^)]*\)', '', s)`: on `(` start buffering (the
buffered characters are emitted literally if no `)` ever closes the group,
since the regex then has no match there or later); on `)` drop the group.
Matching is left-to-right and non-overlapping, as in `re.sub`. -/
def stripParenAnyAux : Option (List Char) → List Char → List Char
  | none, [] => []
  | some pend, [] => '(' :: pend.reverse
  | none, c :: rest =>
    if c = '(' then stripParenAnyAux (some []) rest
    else c :: stripParenAnyAux none rest
  | some pend, c :: rest =>
    if c = ')' then stripParenAnyAux none rest
    else stripParenAnyAux (some (c :: pend)) rest

/-- Remove every parenthesised group, as
`.str.replace(r'\([^)]*\)', '', regex=True)` does on the state column of
`DataCleaner.extract_temporal_data`. -/
def stripParenAnyL (l : List Char) : List Char := stripParenAnyAux none l

/-- Cell-level action of `DataCleaner.clean_text_columns` on an object
column: `astype(str).str.strip()` (pandas renders a missing value as the
string `nan`), then the exact strings `nan` / `None` / `''` are replaced by
`NaN`, then `.str.title()` is applied when the column name contains `state`
or `vehicle` (`title = true`). -/
def cleanTextCellDC (title : Bool) (c : Cell) : Cell :=
  let t := pyStrip (cellToStr c)
  if t ∈ (["nan", "None", ""] : List String) then .null
  else .str (if title then titleStr t else t)

/-- State extraction of `DataCleaner.extract_temporal_data`:
`astype(str)` (so a missing filter becomes the string `nan`), then the
parenthesised groups are removed and the result stripped — always a
string, never `NaN`. -/
def stateCellDC (fs : Cell) : Cell :=
  .str (pyStrip ⟨stripParenAnyL (cellToStr fs).toList⟩)

/-- One row of the frame handled by `DataCleaner.clean_all`, with the
columns that pipeline touches: the `S No` metadata column (text-cleaned but
never title-cased), the `Vehicle Class` text column, the known numeric
columns (ordered list of cells), the `Filter_Year` / `Filter_State` tags and
the derived `Year` / `State` / `Vehicle_Category` columns (absent on raw
input, represented as `null`). -/
@[ext]
structure DCRow where
  sNo : Cell
  vehicleClass : Cell
  numerics : List Cell
  filterYear : Cell
  filterState : Cell
  year : Cell
  state : Cell
  vehicleCategory : Cell
deriving DecidableEq, Repr

/-- Is every cell of the row missing? (`dropna(how='all')`.) -/
def DCRow.allNull (r : DCRow) : Bool :=
  r.sNo = Cell.null && r.vehicleClass = Cell.null && r.numerics.all (· = Cell.null) &&
  r.filterYear = Cell.null && r.filterState = Cell.null && r.year = Cell.null &&
  r.state = Cell.null && r.vehicleCategory = Cell.null

/-- Row-wise action of `DataCleaner.clean_all` between the `dropna` and the
deduplication, in source order: `clean_numeric_columns`,
`clean_text_columns` (title-casing the `state`/`vehicle` columns; the
`Year` column is numeric by then and skipped; `State` and
`Vehicle_Category` are overwritten below, so their intermediate cleaning is
immaterial), `extract_temporal_data` (the first `year`/`state` columns in
frame order are `Filter_Year` / `Filter_State`), and
`Vehicle_Category = Vehicle Class`. -/
def cleanDCRow (r : DCRow) : DCRow :=
  let vc := cleanTextCellDC true r.vehicleClass
  let fy := cleanTextCellDC false r.filterYear
  let fs := cleanTextCellDC true r.filterState
  { sNo := cleanTextCellDC false r.sNo
    vehicleClass := vc
    numerics := r.numerics.map cleanNumericCellDC
    filterYear := fy
    filterState := fs
    year := extractYearCell fy
    state := stateCellDC fs
    vehicleCategory := vc }

/-- `fillna` of `DataCleaner.handle_missing_values` on a text column. -/
def fillTextCell (d : String) : Cell → Cell
  | .null => .str d
  | c => c

/-- `fillna(0)` of `DataCleaner.handle_missing_values` on a numeric
column. -/
def fillNumCell : Cell → Cell
  | .null => .num 0
  | c => c

/-- `DataCleaner.handle_missing_values`: the numeric columns and the numeric
`Year` get `0`, the text columns `Unknown State` / `Unknown Vehicle` /
`Unknown` by column name. -/
def fillMissingDCRow (r : DCRow) : DCRow :=
  { sNo := fillTextCell "Unknown" r.sNo
    vehicleClass := fillTextCell "Unknown Vehicle" r.vehicleClass
    numerics := r.numerics.map fillNumCell
    filterYear := fillTextCell "Unknown" r.filterYear
    filterState := fillTextCell "Unknown State" r.filterState
    year := fillNumCell r.year
    state := fillTextCell "Unknown State" r.state
    vehicleCategory := fillTextCell "Unknown Vehicle" r.vehicleCategory }

/-- `drop_duplicates` keeping the first row of each key (structural
accumulator of the keys already seen). -/
def dedupKeyedAux {α κ : Type} [DecidableEq κ] (f : α → κ) : List α → List κ → List α
  | [], _ => []
  | a :: rest, seen =>
    if f a ∈ seen then dedupKeyedAux f rest seen
    else a :: dedupKeyedAux f rest (f a :: seen)

/-- `drop_duplicates(subset=..., keep='first')` with key function `f`
(`f = id` is the full-row `drop_duplicates()`). -/
def dedupKeyed {α κ : Type} [DecidableEq κ] (f : α → κ) (l : List α) : List α :=
  dedupKeyedAux f l []

/-- The key columns of `DataCleaner.remove_duplicates`:
`['State', 'Year', 'Vehicle Class']`. -/
def dcKey (r : DCRow) : Cell × Cell × Cell := (r.state, r.year, r.vehicleClass)

/-- `DataCleaner.clean_all`: `validate_data` raises on an empty frame (the
broad handler re-raises it as `DataProcessingError`, modelled as `none`);
otherwise drop the all-missing rows, run the row-wise cleaning, remove exact
duplicates and then `State`/`Year`/`Vehicle Class` duplicates keeping the
first, and fill the missing values. -/
def cleanAllDC (rows : List DCRow) : Option (List DCRow) :=
  if rows = [] then none
  else some ((dedupKeyed dcKey (dedupKeyed id
    ((rows.filter (fun r => ! r.allNull)).map cleanDCRow))).map fillMissingDCRow)

/-! ### Table extractor (`_parse_complex_table_headers`, `fetch_data`) -/

/-- The known category-code tokens of the complex-header branch. -/
def knownCodes12 : List String :=
  ["2WIC", "2WN", "2WT", "TOTAL", "3WN", "3WT", "LMV", "MMV", "HMV", "LGV", "MGV", "HGV"]

/-- The known category-code tokens of the simple-header branch. -/
def knownCodes9 : List String :=
  ["2WIC", "2WN", "2WT", "TOTAL", "3WN", "3WT", "LMV", "MMV", "HMV"]

/-- `VahanScraper._parse_complex_table_headers` on the header rows (each a
list of `th` cell texts). With at least three header rows: the first two
cells of the first row contribute the spanning labels they contain, then
every cell of the last row contributes its code (known codes verbatim, a cell
containing `TOTAL` canonicalised to `TOTAL`, other text only when at most 10
characters). With fewer rows, the last row is taken, recognising the spanning
labels and codes (the code branch and the default branch both append the
normalised text, written out here as in the source). -/
def parseComplexTableHeaders (headerRows : List (List String)) : List String :=
  if 3 ≤ headerRows.length then
    let firstRow := headerRows.headD []
    let fromFirst := (firstRow.take 2).filterMap (fun cell =>
      let text := normalizeCell cell
      if hasSubStr "S No" text then some "S No"
      else if hasSubStr "Vehicle Class" text then some "Vehicle Class"
      else none)
    let lastRow := headerRows.getLastD []
    let fromLast := lastRow.filterMap (fun cell =>
      let text := normalizeCell cell
      if text ≠ "" ∧ text ∉ (["S No", "Vehicle Class", ""] : List String) then
        if text ∈ knownCodes12 then some text
        else if hasSubStr "TOTAL" (upperStr text) then some "TOTAL"
        else if text.length ≤ 10 then some text
        else none
      else none)
    fromFirst ++ fromLast
  else
    match headerRows.getLast? with
    | none => []
    | some lastRow => lastRow.filterMap (fun cell =>
      let text := normalizeCell cell
      if text ≠ "" ∧ text ≠ " " then
        if hasSubStr "S No" text then some "S No"
        else if hasSubStr "Vehicle Class" text then some "Vehicle Class"
        else if text ∈ knownCodes9 then some text
        else some text
      else none)

/-- Canonical form of a final-header-row cell under the claimed flattening:
known category codes stay as they are, any other cell (one containing
`TOTAL`) becomes the canonical name `TOTAL`. Used to state claim C7. -/
def canonLast (cell : String) : String :=
  let t := normalizeCell cell
  if t ∈ knownCodes12 then t else "TOTAL"

/-- Status field of the extraction result. -/
inductive Status where
  | success
  | timeout
  | error
deriving DecidableEq, Repr

/-- The dictionary returned by `VahanScraper.fetch_data`. -/
structure ExtractedTable where
  headers : List String
  rows : List (List String)
  status : Status
deriving DecidableEq, Repr

/-- The page situation `fetch_data` finds: the results table became visible
(with its header rows and body-row cell texts), the wait timed out, or some
other interaction failure was raised. -/
inductive PageState where
  | loaded (headerRows : List (List String)) (bodyRows : List (List String))
  | timedOut
  | failed (msg : String)

/-- `VahanScraper.fetch_data`: on a visible table, parse the headers, strip
every body cell, keep exactly the rows with at least one non-empty cell
(`if any(cells)`), and report `success`; a timeout or exception is caught and
reported as an empty table with the corresponding status. No relation
between row length and header length is checked anywhere. -/
def fetchData : PageState → ExtractedTable
  | .loaded hr br =>
    { headers := parseComplexTableHeaders hr,
      rows := (br.map (fun row => row.map pyStrip)).filter
        (fun cells => cells.any (fun c => c ≠ "")),
      status := .success }
  | .timedOut => { headers := [], rows := [], status := .timeout }
  | .failed _ => { headers := [], rows := [], status := .error }

/-! ### Scrape orchestrator (`scrape_multiple_combinations`) -/

/-- A filter combination: the ordered label/value pairs of the `filters`
dictionary. -/
def Filters : Type := List (String × String)

instance : DecidableEq Filters := by
  unfold Filters
  infer_instance

/-- What `apply_filters` produces for one combination: a result table, or an
exception raised during filter application/refresh/extraction. -/
inductive FetchOutcome where
  | ok (t : ExtractedTable)
  | exn (msg : String)

/-- Tagging of one kept row (`dict(zip(headers, row_data))` plus the
`Filter_*` entries and the capture timestamp `Scraped_Date`), modelled as an
ordered association list. `zip` stops at the header list, so cells beyond the
header count are discarded. -/
def tagRow (headers : List String) (filters : Filters) (ts : String)
    (row : List String) : List (String × String) :=
  headers.zip row ++ filters.map (fun kv => ("Filter_" ++ kv.1, kv.2)) ++
    [("Scraped_Date", ts)]

/-- The rows contributed by one combination in
`scrape_multiple_combinations`: an exception is caught (logged) and yields
nothing; a result is used only when its status is `success` and its row list
non-empty, and then every row with at least as many cells as headers is
tagged, in order. -/
def comboRows (env : Filters → FetchOutcome) (ts : String) (filters : Filters) :
    List (List (String × String)) :=
  match env filters with
  | .exn _ => []
  | .ok t =>
    if t.status = .success ∧ t.rows ≠ [] then
      (t.rows.filter (fun row => t.headers.length ≤ row.length)).map
        (tagRow t.headers filters ts)
    else []

/-- `VahanScraper.scrape_multiple_combinations`: concatenation of the tagged
rows of every combination, in sweep order; the empty list is the explicitly
empty `pd.DataFrame()` returned when nothing was collected. -/
def scrapeMultipleCombinations (env : Filters → FetchOutcome) (ts : String)
    (combos : List Filters) : List (List (String × String)) :=
  combos.flatMap (comboRows env ts)

/-! ### Dropdown enumerator (`_fetch_one_menu_items`, `scrape_dropdowns`) -/

/-- What one attempt of `_fetch_one_menu_items` runs into: the option panel
never becomes visible (`TimeoutException`), the click is intercepted on every
try, some other exception, or the panel opens and lists items. -/
inductive AttemptOutcome where
  | panelTimeout
  | intercepted
  | ok (items : List String)
  | err (msg : String)

/-- Observable side effect of the loop body: each attempt first forces every
other open panel shut (`_close_all_open_panels`). -/
inductive MenuAction where
  | closePanels
deriving DecidableEq, Repr

/-- Python `base_id[:-6]` when the id ends in `_input`. -/
def normBaseId (b : String) : String :=
  if startsWithL "_input".toList.reverse b.toList.reverse then
    ⟨b.toList.take (b.toList.length - 6)⟩
  else b

/-- The de-duplicated, non-empty, stripped item texts collected from the
panel (`if text and text not in items`). -/
def dedupItems (items : List String) : List String :=
  items.foldl (fun acc it =>
    let t := pyStrip it
    if t ≠ "" ∧ t ∉ acc then acc ++ [t] else acc) []

/-- The sentinel returned when the panel never appears:
`f"⚠️ Timeout: Panel not found for {base_id}"`. -/
def timeoutMsg (b : String) : String := "⚠️ Timeout: Panel not found for " ++ b

/-- The sentinel built by the generic handler:
`f"⚠️ Error (attempt {attempt + 1}): {str(e)[:100]}..."`. -/
def errAttemptMsg (attempt : ℕ) (msg : String) : String :=
  "⚠️ Error (attempt " ++ natStr (attempt + 1) ++ "): " ++ ⟨msg.toList.take 100⟩ ++ "..."

/-- The exception text raised when the dropdown never becomes clickable. -/
def noClickMsg (maxRetries : ℕ) : String :=
  "Could not click dropdown after " ++ natStr maxRetries ++ " attempts"

/-- The loop of `_fetch_one_menu_items`: `remaining` counts the attempts
still allowed (the source's `for attempt in range(max_retries)` with
`attempt == max_retries - 1` exactly when `remaining = 1`), `attempt` is the
current index. Returns the item list (or sentinel), the number of attempts
made, and the trace of panel closures (one per attempt). Every failure path
returns a value; nothing escapes as an exception. -/
def fetchMenuGo (env : ℕ → AttemptOutcome) (b : String) (maxRetries : ℕ) :
    ℕ → ℕ → List String × ℕ × List MenuAction
  | 0, attempt => (["⚠️ Failed after " ++ natStr maxRetries ++ " attempts"], attempt, [])
  | remaining + 1, attempt =>
    match env attempt with
    | .ok items => (dedupItems items, attempt + 1, [.closePanels])
    | .panelTimeout =>
      if remaining = 0 then ([timeoutMsg b], attempt + 1, [.closePanels])
      else
        let res := fetchMenuGo env b maxRetries remaining (attempt + 1)
        (res.1, res.2.1, .closePanels :: res.2.2)
    | .intercepted =>
      if remaining = 0 then
        ([errAttemptMsg attempt (noClickMsg maxRetries)], attempt + 1, [.closePanels])
      else
        let res := fetchMenuGo env b maxRetries remaining (attempt + 1)
        (res.1, res.2.1, .closePanels :: res.2.2)
    | .err m =>
      if remaining = 0 then ([errAttemptMsg attempt m], attempt + 1, [.closePanels])
      else
        let res := fetchMenuGo env b maxRetries remaining (attempt + 1)
        (res.1, res.2.1, .closePanels :: res.2.2)

/-- `VahanScraper._fetch_one_menu_items` with its default `max_retries = 3`. -/
def fetchOneMenuItems (env : ℕ → AttemptOutcome) (baseId : String) :
    List String × ℕ × List MenuAction :=
  fetchMenuGo env (normBaseId baseId) 3 3 0

/-- `VahanScraper.scrape_dropdowns`: every dropdown label receives an entry;
the item list of each is fetched with `_fetch_one_menu_items`, an empty
result is replaced by a placeholder, and a leading `Select…` entry is
stripped. Failures of one dropdown do not affect the others. -/
def scrapeDropdowns (envs : String → ℕ → AttemptOutcome)
    (dropdownMap : List (String × String)) : List (String × List String) :=
  dropdownMap.map (fun lw =>
    let items0 := (fetchOneMenuItems (envs lw.2) lw.2).1
    let items1 := if items0 = [] then ["⚠️ No items found for " ++ lw.1] else items0
    let items2 :=
      match items1 with
      | it :: rest => if startsWithL "Select".toList it.toList then rest else items1
      | [] => items1
    (lw.1, items2))

/-! ### Compound annual growth rate (`GrowthAnalyzer.calculate_compound_growth_rate`) -/

/-- Python `round(x, 2)` on a real value (half-up variant, see the header
note). -/
noncomputable def round2R (x : ℝ) : ℝ := ((round (x * 100) : ℤ) : ℝ) / 100

/-- `GrowthAnalyzer.calculate_compound_growth_rate` on the `TOTAL` column
grouped by `Year`: fewer than two periods give `0.0`; a non-positive start
value gives `0.0`; with a negative end value and a fractional exponent,
CPython `pow` returns a complex number and the subsequent `round` raises a
`TypeError`, which the enclosing handler converts to `0.0`; otherwise the
result is `round((end / start) ** (1 / num_periods) - 1) * 100, 2)` with
`num_periods = len(period_data) - 1`. -/
noncomputable def calculateCompoundGrowthRate (rows : List CRow) : ℝ :=
  let ys := yearlyTotals rows
  if ys.length < 2 then 0
  else
    let startV := (ys.headD (0, 0)).2
    let endV := (ys.getLastD (0, 0)).2
    let np := ys.length - 1
    if startV ≤ 0 then 0
    else if endV < 0 ∧ 2 ≤ np then 0
    else round2R ((((endV : ℝ) / (startV : ℝ)) ^ ((1 : ℝ) / (np : ℝ)) - 1) * 100)

/-! ### Supporting lemmas -/

theorem qAdd_eq (a b : ℚ) : qAdd a b = a + b := by
  rw [qAdd, Rat.divInt_eq_div]
  have ha : ((a.den : ℚ)) ≠ 0 := by exact_mod_cast a.den_nz
  have hb : ((b.den : ℚ)) ≠ 0 := by exact_mod_cast b.den_nz
  conv_rhs => rw [← Rat.num_div_den a, ← Rat.num_div_den b]
  push_cast
  field_simp

theorem qSub_eq (a b : ℚ) : qSub a b = a - b := by
  rw [qSub, Rat.divInt_eq_div]
  have ha : ((a.den : ℚ)) ≠ 0 := by exact_mod_cast a.den_nz
  have hb : ((b.den : ℚ)) ≠ 0 := by exact_mod_cast b.den_nz
  conv_rhs => rw [← Rat.num_div_den a, ← Rat.num_div_den b]
  push_cast
  field_simp
  ring

theorem qMul_eq (a b : ℚ) : qMul a b = a * b := by
  rw [qMul, Rat.divInt_eq_div]
  have ha : ((a.den : ℚ)) ≠ 0 := by exact_mod_cast a.den_nz
  have hb : ((b.den : ℚ)) ≠ 0 := by exact_mod_cast b.den_nz
  conv_rhs => rw [← Rat.num_div_den a, ← Rat.num_div_den b]
  push_cast
  rw [div_mul_div_comm]

theorem qNeg_eq (a : ℚ) : qNeg a = -a := by
  rw [qNeg, Rat.divInt_eq_div]
  have ha : ((a.den : ℚ)) ≠ 0 := by exact_mod_cast a.den_nz
  conv_rhs => rw [← Rat.num_div_den a]
  push_cast
  ring

theorem qDiv_eq (a b : ℚ) : qDiv a b = a / b := by
  rw [qDiv, Rat.divInt_eq_div]
  have ha : ((a.den : ℚ)) ≠ 0 := by exact_mod_cast a.den_nz
  rcases eq_or_ne b 0 with rfl | hb0
  · simp
  · have hb : ((b.den : ℚ)) ≠ 0 := by exact_mod_cast b.den_nz
    have hbn : ((b.num : ℚ)) ≠ 0 := by
      exact_mod_cast Rat.num_ne_zero.mpr hb0
    conv_rhs => rw [← Rat.num_div_den a, ← Rat.num_div_den b]
    push_cast
    field_simp

theorem qSum_eq (l : List ℚ) : qSum l = l.sum := by
  induction l with
  | nil => rfl
  | cons a t ih => simp [qSum, List.foldr_cons, qAdd_eq, List.sum_cons] at ih ⊢; rw [ih]

theorem stripL_subset {a : Char} {l : List Char} (h : a ∈ stripL l) : a ∈ l := by
  unfold stripL at h
  rw [List.mem_reverse] at h
  have h2 := (List.dropWhile_sublist (l := (l.dropWhile isSpaceC).reverse)
    (p := isSpaceC)).subset h
  rw [List.mem_reverse] at h2
  exact (List.dropWhile_sublist (l := l) (p := isSpaceC)).subset h2

theorem replaceNanL_cons_ne (c : Char) (rest : List Char)
    (hne : ∀ rest1, c = 'n' → rest = 'a' :: 'n' :: rest1 → False) :
    replaceNanL (c :: rest) = c :: replaceNanL rest := by
  rw [replaceNanL.eq_def]
  split
  next rest1 heq => exact (hne rest1 (by injection heq) (by injection heq)).elim
  next c2 rest2 hx heq =>
    injection heq with h1 h2
    rw [h1, h2]
  next heq => exact absurd heq (by simp)

theorem replaceNanL_mem {l : List Char} : ∀ {a : Char}, a ∈ replaceNanL l →
    a = '0' ∨ a ∈ l := by
  induction l using replaceNanL.induct with
  | case1 rest ih =>
    intro a h
    rw [show replaceNanL ('n' :: 'a' :: 'n' :: rest) = '0' :: replaceNanL rest from rfl] at h
    rcases List.mem_cons.mp h with h | h
    · exact Or.inl h
    · rcases ih h with h' | h'
      · exact Or.inl h'
      · exact Or.inr (by simp [h'])
  | case2 c rest hne ih =>
    intro a h
    rw [replaceNanL_cons_ne c rest (fun r1 h1 h2 => hne r1 h1 h2)] at h
    rcases List.mem_cons.mp h with h | h
    · exact Or.inr (by simp [h])
    · rcases ih h with h' | h'
      · exact Or.inl h'
      · exact Or.inr (by simp [h'])
  | case3 =>
    intro a h
    simp [replaceNanL] at h

theorem ratOfParts_nonneg (d : ℕ) (e : ℤ) : 0 ≤ ratOfParts d e := by
  unfold ratOfParts
  split <;> rw [Rat.mkRat_eq_div] <;> positivity

theorem parseUnsigned_nonneg {l : List Char} {q : ℚ} (h : parseUnsigned l = some q) :
    0 ≤ q := by
  unfold parseUnsigned at h
  rcases hm : parseMant l with _ | ⟨d, fl, rest⟩ <;> rw [hm] at h
  · simp at h
  · simp only at h
    split_ifs at h
    · rw [Option.some_inj] at h
      exact h ▸ ratOfParts_nonneg _ _
    · rcases Option.map_eq_some'.mp h with ⟨e, _, he⟩
      exact he ▸ ratOfParts_nonneg _ _

theorem pyToNumeric_nonneg {s : String} {q : ℚ} (hd : '-' ∉ s.toList)
    (h : pyToNumeric s = some q) : 0 ≤ q := by
  unfold pyToNumeric at h
  have hh : (stripL s.toList).head? ≠ some '-' := by
    intro hc
    rcases he : stripL s.toList with _ | ⟨c, r⟩
    · rw [he] at hc; simp at hc
    · rw [he] at hc
      simp at hc
      exact hd (stripL_subset (he ▸ (hc ▸ List.mem_cons_self c r)))
  rw [if_neg hh] at h
  split_ifs at h
  · exact parseUnsigned_nonneg h
  · exact parseUnsigned_nonneg h

theorem pyToNumeric_getD_nonneg {s : String} (hnd : '-' ∉ s.toList) :
    0 ≤ (pyToNumeric s).getD 0 := by
  rcases hp : pyToNumeric s with _ | q
  · simp
  · simpa using pyToNumeric_nonneg hnd hp

theorem cleanNumericValDP_nonneg (c : Cell) : 0 ≤ cleanNumericValDP c := by
  apply pyToNumeric_getD_nonneg
  intro hmem
  replace hmem : '-' ∈ replaceNanL ((((cellToStr c).toList.filter
      (fun ch => ch ≠ ',')).filter (fun ch => ch ≠ ' ')).map
      (fun ch => if ch = '-' then '0' else ch)) := hmem
  rcases replaceNanL_mem hmem with h | h
  · exact absurd h (by decide)
  · rcases List.mem_map.mp h with ⟨x, _, hx⟩
    by_cases hxd : x = '-'
    · rw [if_pos hxd] at hx
      exact absurd hx (by decide)
    · rw [if_neg hxd] at hx
      exact hxd hx

theorem toNat_ofNat_valid {n : ℕ} (h : n < 55296) : (Char.ofNat n).toNat = n := by
  unfold Char.ofNat
  rw [dif_pos (Or.inl h)]
  rfl

theorem char_le_iff (a c : Char) : a ≤ c ↔ a.toNat ≤ c.toNat := Iff.rfl

theorem upChar_toNat {c : Char} (h : ('a' ≤ c && c ≤ 'z') = true) :
    (upChar c).toNat = c.toNat - 32 ∧ 65 ≤ (upChar c).toNat ∧ (upChar c).toNat ≤ 90 := by
  have h' := h
  rw [Bool.and_eq_true, decide_eq_true_iff, decide_eq_true_iff] at h'
  have h1 : 97 ≤ c.toNat := (char_le_iff 'a' c).mp h'.1
  have h2 : c.toNat ≤ 122 := (char_le_iff c 'z').mp h'.2
  have he : (upChar c).toNat = c.toNat - 32 := by
    rw [upChar, if_pos h]
    exact toNat_ofNat_valid (by omega)
  refine ⟨he, ?_, ?_⟩ <;> omega

theorem upChar_eq_self {c : Char} (h : ¬ ('a' ≤ c && c ≤ 'z') = true) : upChar c = c := by
  rw [upChar, if_neg h]

theorem isSpaceC_false_of_toNat {c : Char} (h1 : 33 ≤ c.toNat) : isSpaceC c = false := by
  unfold isSpaceC
  simp only [Bool.or_eq_false_iff, decide_eq_false_iff_not]
  refine ⟨⟨⟨⟨⟨?_, ?_⟩, ?_⟩, ?_⟩, ?_⟩, ?_⟩ <;>
    · intro he
      rw [he] at h1
      exact absurd h1 (by decide)

theorem upChar_idem (c : Char) : upChar (upChar c) = upChar c := by
  by_cases h : ('a' ≤ c && c ≤ 'z') = true
  · obtain ⟨-, -, h90⟩ := upChar_toNat h
    apply upChar_eq_self
    rw [Bool.and_eq_true, decide_eq_true_iff, decide_eq_true_iff]
    rintro ⟨hle, -⟩
    have h97 : 97 ≤ (upChar c).toNat := (char_le_iff 'a' (upChar c)).mp hle
    omega
  · rw [upChar_eq_self h, upChar_eq_self h]

theorem isSpaceC_upChar (c : Char) : isSpaceC (upChar c) = isSpaceC c := by
  by_cases h : ('a' ≤ c && c ≤ 'z') = true
  · obtain ⟨-, h65, -⟩ := upChar_toNat h
    have h' := h
    rw [Bool.and_eq_true, decide_eq_true_iff, decide_eq_true_iff] at h'
    have h97 : 97 ≤ c.toNat := (char_le_iff 'a' c).mp h'.1
    rw [isSpaceC_false_of_toNat (by omega), isSpaceC_false_of_toNat (by omega)]
  · rw [upChar_eq_self h]

theorem dropWhile_dropWhile {α : Type} (p : α → Bool) (l : List α) :
    (l.dropWhile p).dropWhile p = l.dropWhile p := by
  rcases h : l.dropWhile p with _ | ⟨x, xs⟩
  · simp
  · have hne : l.dropWhile p ≠ [] := by rw [h]; simp
    have hh := List.head_dropWhile_not p l hne
    have hx : (l.dropWhile p).head hne = x := by
      have h? : (l.dropWhile p).head? = some x := by rw [h]; rfl
      rw [List.head?_eq_head hne] at h?
      exact Option.some_injective _ h?
    rw [hx] at hh
    simp [List.dropWhile_cons, hh]

theorem stripL_dropWhile (l : List Char) :
    (stripL l).dropWhile isSpaceC = stripL l := by
  rcases h : stripL l with _ | ⟨x, xs⟩
  · simp
  · have hsplit : stripL l ++ (((l.dropWhile isSpaceC).reverse.takeWhile isSpaceC)).reverse
        = l.dropWhile isSpaceC := by
      unfold stripL
      rw [← List.reverse_append, List.takeWhile_append_dropWhile, List.reverse_reverse]
    have hne : l.dropWhile isSpaceC ≠ [] := by
      rw [← hsplit, h]
      simp
    have hh := List.head_dropWhile_not isSpaceC l hne
    have hxh : (l.dropWhile isSpaceC).head hne = x := by
      have hsome : (l.dropWhile isSpaceC).head? = some x := by
        rw [← hsplit, h]
        rfl
      rw [List.head?_eq_head hne] at hsome
      exact Option.some_injective _ hsome
    rw [hxh] at hh
    simp [List.dropWhile_cons, hh]

theorem stripL_idem (l : List Char) : stripL (stripL l) = stripL l := by
  conv_lhs => rw [stripL]
  rw [stripL_dropWhile l]
  have hrev : (stripL l).reverse = (l.dropWhile isSpaceC).reverse.dropWhile isSpaceC := by
    unfold stripL
    rw [List.reverse_reverse]
  rw [hrev, dropWhile_dropWhile]
  rfl

theorem stripL_map_upChar (l : List Char) :
    stripL (l.map upChar) = (stripL l).map upChar := by
  have hp : (isSpaceC ∘ upChar) = isSpaceC := funext isSpaceC_upChar
  unfold stripL
  rw [List.dropWhile_map, hp, ← List.map_reverse, List.dropWhile_map, hp, ← List.map_reverse]

theorem map_upChar_idem (l : List Char) :
    (l.map upChar).map upChar = l.map upChar := by
  rw [List.map_map, show upChar ∘ upChar = upChar from funext upChar_idem]

theorem cleanVehicleClassCell_idem (c : Cell) :
    cleanVehicleClassCell (cleanVehicleClassCell c) = cleanVehicleClassCell c := by
  rcases c with s | q
  · show Cell.str (upperStr (pyStrip (upperStr (pyStrip s)))) = _
    unfold upperStr pyStrip
    show Cell.str ⟨(stripL ((stripL s.toList).map upChar)).map upChar⟩ = _
    rw [stripL_map_upChar, stripL_idem, map_upChar_idem]
    rfl
  · rfl
  · rfl

theorem cleanRow_idem (intYear : Bool) (r : Row)
    (h : ∀ c ∈ r.numerics,
      cleanNumericCellDP (cleanNumericCellDP c) = cleanNumericCellDP c) :
    cleanRow intYear (cleanRow intYear r) = cleanRow intYear r := by
  refine Row.ext rfl (cleanVehicleClassCell_idem r.vehicleClass) ?_ rfl rfl rfl rfl rfl rfl ?_
  · show (r.numerics.map cleanNumericCellDP).map cleanNumericCellDP
        = r.numerics.map cleanNumericCellDP
    rw [List.map_map]
    exact List.map_congr_left (fun c hc => h c hc)
  · show Cell.str (categorizeVehicle (cleanVehicleClassCell
        (cleanVehicleClassCell r.vehicleClass)))
      = Cell.str (categorizeVehicle (cleanVehicleClassCell r.vehicleClass))
    rw [cleanVehicleClassCell_idem r.vehicleClass]

theorem cleanData_idem (rows : List Row)
    (h : ∀ r ∈ rows, ∀ c ∈ r.numerics,
      cleanNumericCellDP (cleanNumericCellDP c) = cleanNumericCellDP c) :
    cleanData (cleanData rows) = cleanData rows := by
  unfold cleanData
  have hfil : ((rows.filter (fun r => !r.allNull)).map
      (cleanRow (yearsAllParse (rows.filter (fun r => !r.allNull))))).filter
        (fun r => !r.allNull)
      = (rows.filter (fun r => !r.allNull)).map
        (cleanRow (yearsAllParse (rows.filter (fun r => !r.allNull)))) := by
    refine List.filter_eq_self.mpr ?_
    intro r hr
    rcases List.mem_map.mp hr with ⟨r0, -, rfl⟩
    simp [Row.allNull, cleanRow]
  rw [hfil]
  have hflag : yearsAllParse ((rows.filter (fun r => !r.allNull)).map
      (cleanRow (yearsAllParse (rows.filter (fun r => !r.allNull)))))
      = yearsAllParse (rows.filter (fun r => !r.allNull)) := by
    unfold yearsAllParse
    rw [List.all_map]
    rfl
  rw [hflag, List.map_map]
  exact List.map_congr_left
    (fun r hr => cleanRow_idem _ r (h r (List.mem_of_mem_filter hr)))

theorem cleanTextCellDC_shape (tb : Bool) (c : Cell) :
    cleanTextCellDC tb c = Cell.null ∨ ∃ s, cleanTextCellDC tb c = Cell.str s := by
  by_cases h : pyStrip (cellToStr c) ∈ (["nan", "None", ""] : List String)
  · exact Or.inl (if_pos h)
  · exact Or.inr ⟨_, if_neg h⟩

theorem fillTextCell_ne_null (d : String) (c : Cell) : fillTextCell d c ≠ Cell.null := by
  cases c <;> simp [fillTextCell]

theorem fillTextCell_eq_self {d : String} {c : Cell} (h : c ≠ Cell.null) :
    fillTextCell d c = c := by
  cases c
  · rfl
  · rfl
  · exact absurd rfl h

theorem fillNumCell_ne_null (c : Cell) : fillNumCell c ≠ Cell.null := by
  cases c <;> simp [fillNumCell]

theorem fillNumCell_eq_self {c : Cell} (h : c ≠ Cell.null) : fillNumCell c = c := by
  cases c
  · rfl
  · rfl
  · exact absurd rfl h

theorem mem_of_mem_dedupKeyedAux {α κ : Type} [DecidableEq κ] (f : α → κ) :
    ∀ {l : List α} {seen : List κ} {a : α}, a ∈ dedupKeyedAux f l seen → a ∈ l := by
  intro l
  induction l with
  | nil => intro seen a h; exact absurd h (List.not_mem_nil a)
  | cons b t ih =>
    intro seen a h
    unfold dedupKeyedAux at h
    by_cases hb : f b ∈ seen
    · rw [if_pos hb] at h
      exact List.mem_cons_of_mem b (ih h)
    · rw [if_neg hb] at h
      rcases List.mem_cons.mp h with rfl | h'
      · exact List.mem_cons_self a t
      · exact List.mem_cons_of_mem b (ih h')

theorem dedupKeyedAux_eq_self {α κ : Type} [DecidableEq κ] (f : α → κ) :
    ∀ (l : List α) (seen : List κ), (l.map f).Nodup → (∀ a ∈ l, f a ∉ seen) →
      dedupKeyedAux f l seen = l := by
  intro l
  induction l with
  | nil => intro seen _ _; rfl
  | cons b t ih =>
    intro seen hnd hseen
    unfold dedupKeyedAux
    rw [if_neg (hseen b (List.mem_cons_self b t))]
    rw [List.map_cons, List.nodup_cons] at hnd
    refine congrArg (b :: ·) (ih (f b :: seen) hnd.2 ?_)
    intro a ha hmem
    rcases List.mem_cons.mp hmem with heq | hmem'
    · exact hnd.1 (heq ▸ List.mem_map_of_mem f ha)
    · exact hseen a (List.mem_cons_of_mem b ha) hmem'

theorem dedupKeyed_eq_self {α κ : Type} [DecidableEq κ] (f : α → κ) (l : List α)
    (h : (l.map f).Nodup) : dedupKeyed f l = l :=
  dedupKeyedAux_eq_self f l [] h (fun a _ hmem => (List.not_mem_nil (f a)) hmem)

theorem fillclean_fixed (r r0 : DCRow) (hr : r = fillMissingDCRow (cleanDCRow r0))
    (hnum : ∀ c ∈ r.numerics, cleanNumericCellDC c = c)
    (hsn : cleanTextCellDC false r.sNo = r.sNo)
    (hvc : cleanTextCellDC true r.vehicleClass = r.vehicleClass)
    (hfy : cleanTextCellDC false r.filterYear = r.filterYear)
    (hfs : cleanTextCellDC true r.filterState = r.filterState)
    (hst : r.state = stateCellDC r.filterState) :
    cleanDCRow r = { r with year := extractYearCell r.filterYear } ∧
    fillMissingDCRow (cleanDCRow r) = r ∧
    r.year = fillNumCell (extractYearCell r.filterYear) := by
  have hvcat : r.vehicleCategory = r.vehicleClass := by
    rw [hr]
    rfl
  have hyear : r.year = fillNumCell (extractYearCell r.filterYear) := by
    rw [hr]
    show fillNumCell (extractYearCell (cleanTextCellDC false r0.filterYear))
      = fillNumCell (extractYearCell
          (fillTextCell "Unknown" (cleanTextCellDC false r0.filterYear)))
    rcases cleanTextCellDC_shape false r0.filterYear with h0 | ⟨s, h0⟩
    · rw [h0]
      decide
    · rw [h0]
      rfl
  have hsn' : r.sNo ≠ Cell.null := by
    rw [hr]
    exact fillTextCell_ne_null _ _
  have hvc' : r.vehicleClass ≠ Cell.null := by
    rw [hr]
    exact fillTextCell_ne_null _ _
  have hfy' : r.filterYear ≠ Cell.null := by
    rw [hr]
    exact fillTextCell_ne_null _ _
  have hfs' : r.filterState ≠ Cell.null := by
    rw [hr]
    exact fillTextCell_ne_null _ _
  have hnum' : ∀ c ∈ r.numerics, c ≠ Cell.null := by
    rw [hr]
    intro c hc
    have hc' : c ∈ (r0.numerics.map cleanNumericCellDC).map fillNumCell := hc
    rcases List.mem_map.mp hc' with ⟨y, -, rfl⟩
    exact fillNumCell_ne_null y
  have hstate' : r.state ≠ Cell.null := by
    rw [hst]
    intro hcon
    exact Cell.noConfusion hcon
  have hclean1 : cleanDCRow r = { r with year := extractYearCell r.filterYear } := by
    refine DCRow.ext hsn hvc ?_ hfy hfs ?_ ?_ ?_
    · exact (List.map_congr_left hnum).trans (List.map_id r.numerics)
    · show extractYearCell (cleanTextCellDC false r.filterYear)
        = extractYearCell r.filterYear
      rw [hfy]
    · show stateCellDC (cleanTextCellDC true r.filterState) = r.state
      rw [hfs]
      exact hst.symm
    · show cleanTextCellDC true r.vehicleClass = r.vehicleCategory
      rw [hvc, hvcat]
  refine ⟨hclean1, ?_, hyear⟩
  rw [hclean1]
  refine DCRow.ext (fillTextCell_eq_self hsn') (fillTextCell_eq_self hvc') ?_
    (fillTextCell_eq_self hfy') (fillTextCell_eq_self hfs') hyear.symm
    (fillTextCell_eq_self hstate') ?_
  · exact (List.map_congr_left
      (fun c hc => fillNumCell_eq_self (hnum' c hc))).trans (List.map_id r.numerics)
  · show fillTextCell "Unknown Vehicle" r.vehicleCategory = r.vehicleCategory
    rw [hvcat]
    exact fillTextCell_eq_self hvc'

theorem cleanAllDC_idem (rowsC out : List DCRow)
    (hclean : cleanAllDC rowsC = some out) (hne : out ≠ [])
    (hnum : ∀ r ∈ out, ∀ c ∈ r.numerics, cleanNumericCellDC c = c)
    (hsn : ∀ r ∈ out, cleanTextCellDC false r.sNo = r.sNo)
    (hvc : ∀ r ∈ out, cleanTextCellDC true r.vehicleClass = r.vehicleClass)
    (hfy : ∀ r ∈ out, cleanTextCellDC false r.filterYear = r.filterYear)
    (hfs : ∀ r ∈ out, cleanTextCellDC true r.filterState = r.filterState)
    (hst : ∀ r ∈ out, r.state = stateCellDC r.filterState)
    (hkey : (out.map dcKey).Nodup) :
    cleanAllDC out = some out := by
  have origin : ∀ r ∈ out, ∃ r0, r = fillMissingDCRow (cleanDCRow r0) := by
    by_cases hrc : rowsC = []
    · rw [hrc] at hclean
      exact absurd hclean (by simp [cleanAllDC])
    · unfold cleanAllDC at hclean
      rw [if_neg hrc] at hclean
      have hout := Option.some.inj hclean
      intro r hrmem
      rw [← hout] at hrmem
      rcases List.mem_map.mp hrmem with ⟨s, hs, rfl⟩
      have hs1 := mem_of_mem_dedupKeyedAux dcKey hs
      have hs2 := mem_of_mem_dedupKeyedAux id hs1
      rcases List.mem_map.mp hs2 with ⟨r0, -, rfl⟩
      exact ⟨r0, rfl⟩
  have hfix : ∀ r ∈ out,
      cleanDCRow r = { r with year := extractYearCell r.filterYear } ∧
      fillMissingDCRow (cleanDCRow r) = r ∧
      r.year = fillNumCell (extractYearCell r.filterYear) := by
    intro r hrmem
    rcases origin r hrmem with ⟨r0, hr⟩
    exact fillclean_fixed r r0 hr (hnum r hrmem) (hsn r hrmem) (hvc r hrmem)
      (hfy r hrmem) (hfs r hrmem) (hst r hrmem)
  unfold cleanAllDC
  rw [if_neg hne]
  refine congrArg some ?_
  have hfil : out.filter (fun r => ! r.allNull) = out := by
    refine List.filter_eq_self.mpr ?_
    intro r hrmem
    rcases origin r hrmem with ⟨r0, hr⟩
    have hstshape : r.state = Cell.str
        (pyStrip ⟨stripParenAnyL (cellToStr
          (cleanTextCellDC true r0.filterState)).toList⟩) := by
      rw [hr]
      rfl
    simp [DCRow.allNull, hstshape]
  rw [hfil]
  have hmapclean : out.map cleanDCRow
      = out.map (fun r => { r with year := extractYearCell r.filterYear }) :=
    List.map_congr_left (fun r hrmem => (hfix r hrmem).1)
  rw [hmapclean]
  have hkeymap : ((out.map (fun r =>
      ({ r with year := extractYearCell r.filterYear } : DCRow))).map dcKey).Nodup := by
    rw [List.map_map]
    have hpsi : (out.map (dcKey ∘ fun r =>
        ({ r with year := extractYearCell r.filterYear } : DCRow))).map
          (fun p : Cell × Cell × Cell => (p.1, fillNumCell p.2.1, p.2.2))
        = out.map dcKey := by
      rw [List.map_map]
      refine List.map_congr_left ?_
      intro r hrmem
      show (r.state, fillNumCell (extractYearCell r.filterYear), r.vehicleClass)
        = (r.state, r.year, r.vehicleClass)
      rw [← (hfix r hrmem).2.2]
    exact List.Nodup.of_map _ (hpsi ▸ hkey)
  have hfull : (out.map (fun r =>
      ({ r with year := extractYearCell r.filterYear } : DCRow))).Nodup :=
    List.Nodup.of_map dcKey hkeymap
  have hid : ((out.map (fun r =>
      ({ r with year := extractYearCell r.filterYear } : DCRow))).map id).Nodup := by
    rw [List.map_id]
    exact hfull
  rw [dedupKeyed_eq_self id _ hid, dedupKeyed_eq_self dcKey _ hkeymap, List.map_map]
  have : ∀ r ∈ out, (fillMissingDCRow ∘ fun r =>
      ({ r with year := extractYearCell r.filterYear } : DCRow)) r = r := by
    intro r hrmem
    show fillMissingDCRow { r with year := extractYearCell r.filterYear } = r
    rw [← (hfix r hrmem).1]
    exact (hfix r hrmem).2.1
  rw [List.map_congr_left this, List.map_id']

theorem mem_pdUniqueAux {α : Type} [DecidableEq α] {a : α} :
    ∀ {l seen : List α}, a ∈ pdUniqueAux seen l ↔ a ∈ l ∧ a ∉ seen := by
  intro l
  induction l with
  | nil => intro seen; simp [pdUniqueAux]
  | cons x xs ih =>
    intro seen
    unfold pdUniqueAux
    by_cases hx : x ∈ seen
    · rw [if_pos hx, ih]
      constructor
      · rintro ⟨h1, h2⟩
        exact ⟨List.mem_cons_of_mem x h1, h2⟩
      · rintro ⟨h1, h2⟩
        rcases List.mem_cons.mp h1 with rfl | h1
        · exact absurd hx h2
        · exact ⟨h1, h2⟩
    · rw [if_neg hx]
      constructor
      · intro hmem
        rcases List.mem_cons.mp hmem with rfl | hmem
        · exact ⟨List.mem_cons_self _ _, hx⟩
        · rcases ih.mp hmem with ⟨h1, h2⟩
          exact ⟨List.mem_cons_of_mem x h1, fun hc => h2 (List.mem_cons_of_mem x hc)⟩
      · rintro ⟨h1, h2⟩
        rcases List.mem_cons.mp h1 with rfl | h1
        · exact List.mem_cons_self _ _
        · by_cases hax : a = x
          · exact hax ▸ List.mem_cons_self _ _
          · exact List.mem_cons_of_mem x (ih.mpr ⟨h1, by
              intro hc
              rcases List.mem_cons.mp hc with h | h
              · exact hax h
              · exact h2 h⟩)

theorem mem_pdUnique {α : Type} [DecidableEq α] {a : α} {l : List α} :
    a ∈ pdUnique l ↔ a ∈ l := by
  unfold pdUnique
  rw [mem_pdUniqueAux]
  simp

theorem pdUniqueAux_nodup {α : Type} [DecidableEq α] :
    ∀ (l seen : List α), (pdUniqueAux seen l).Nodup := by
  intro l
  induction l with
  | nil => intro seen; simp [pdUniqueAux]
  | cons x xs ih =>
    intro seen
    unfold pdUniqueAux
    by_cases hx : x ∈ seen
    · rw [if_pos hx]; exact ih seen
    · rw [if_neg hx]
      refine List.nodup_cons.mpr ⟨?_, ih (x :: seen)⟩
      intro hc
      exact (mem_pdUniqueAux.mp hc).2 (List.mem_cons_self _ _)

theorem pdUnique_nodup {α : Type} [DecidableEq α] (l : List α) : (pdUnique l).Nodup :=
  pdUniqueAux_nodup l []

theorem sortedYears_sorted (rows : List CRow) : (sortedYears rows).Sorted (· ≤ ·) :=
  List.sorted_insertionSort _ _

theorem sortedYears_nodup (rows : List CRow) : (sortedYears rows).Nodup :=
  (List.perm_insertionSort _ _).nodup_iff.mpr (pdUnique_nodup _)

theorem sortedYears_lt (rows : List CRow) : (sortedYears rows).Sorted (· < ·) :=
  ((sortedYears_sorted rows).and (sortedYears_nodup rows)).imp
    (fun h => lt_of_le_of_ne h.1 h.2)

theorem length_sortedYears (rows : List CRow) :
    (sortedYears rows).length = (distinctYears rows).length :=
  (List.perm_insertionSort _ _).length_eq

theorem adjacentRecords_key {k : String} {ys : List (ℤ × ℚ)} {rec : GrowthRec}
    (h : rec ∈ adjacentRecords k ys) : rec.key = k := by
  rcases List.mem_map.mp h with ⟨p, -, rfl⟩
  rfl

theorem length_adjacentRecords (k : String) (ys : List (ℤ × ℚ)) :
    (adjacentRecords k ys).length = ys.length - 1 := by
  simp only [adjacentRecords, List.length_map, List.length_zip, List.length_tail]
  omega

theorem years_adjacentRecords (k : String) (ys : List (ℤ × ℚ)) :
    (adjacentRecords k ys).map (·.year) = ys.tail.map Prod.fst := by
  unfold adjacentRecords
  rw [List.map_map]
  have h1 : ((fun rec => rec.year) ∘ fun p : (ℤ × ℚ) × ℤ × ℚ =>
      ({ key := k, year := p.2.1, currentValue := p.2.2, previousValue := p.1.2,
         growthRate := guardedRate p.2.2 p.1.2,
         growthAbs := qSub p.2.2 p.1.2 } : GrowthRec)) = (fun p => p.2.1) := rfl
  rw [h1]
  have h2 : (fun p : (ℤ × ℚ) × ℤ × ℚ => p.2.1) = (Prod.fst ∘ Prod.snd) := rfl
  rw [h2, ← List.map_map, List.map_snd_zip _ _ (by simp [List.length_tail])]

theorem filter_flatMap_of_nodup {keys : List String} (hnd : keys.Nodup) {k : String}
    (hk : k ∈ keys) (f : String → List GrowthRec)
    (hf : ∀ k' rec, rec ∈ f k' → rec.key = k') :
    (keys.flatMap f).filter (fun rec => rec.key = k) = f k := by
  induction keys with
  | nil => exact absurd hk (by simp)
  | cons a t ih =>
    rw [List.flatMap_cons, List.filter_append]
    by_cases hak : a = k
    · subst hak
      have h1 : (f a).filter (fun rec => rec.key = a) = f a :=
        List.filter_eq_self.mpr (fun rec hrec => by simp [hf a rec hrec])
      have h2 : (t.flatMap f).filter (fun rec => rec.key = a) = [] := by
        refine List.filter_eq_nil_iff.mpr ?_
        intro rec hrec
        rcases List.mem_flatMap.mp hrec with ⟨k', hk', hrk⟩
        have := hf k' rec hrk
        have hna : a ∉ t := (List.nodup_cons.mp hnd).1
        simp only [decide_eq_true_eq]
        intro hc
        exact hna (by rwa [← this, hc] at hk')
      rw [h1, h2, List.append_nil]
    · have h1 : (f a).filter (fun rec => rec.key = k) = [] := by
        refine List.filter_eq_nil_iff.mpr ?_
        intro rec hrec
        simp only [decide_eq_true_eq]
        intro hc
        exact hak ((hf a rec hrec).symm.trans hc)
      have hkt : k ∈ t := by
        rcases List.mem_cons.mp hk with rfl | h
        · exact absurd rfl hak
        · exact h
      rw [h1, ih (List.nodup_cons.mp hnd).2 hkt, List.nil_append]

theorem round2_eq_round (q : ℚ) : round2 q = ((round (q * 100) : ℤ) : ℚ) / 100 := by
  unfold round2 roundHalfUp
  rw [Rat.mkRat_eq_div, qMul_eq, qAdd_eq, round_eq]
  norm_num [Rat.mkRat_eq_div]
  rfl

theorem guardedRate_eq (cur prev : ℚ) :
    guardedRate cur prev =
      if 0 < prev then round2 ((cur - prev) / prev * 100) else 0 := by
  unfold guardedRate
  rw [qSub_eq, qDiv_eq, qMul_eq]

theorem pandasRate_some_pos {cur p : ℚ} (h : 0 < p) :
    pandasRate cur (some p) = .fin (round2 ((cur - p) / p * 100)) := by
  show (if p = 0 then
      if 0 < qSub cur p then PFloat.inf
      else if qSub cur p < 0 then PFloat.ninf else PFloat.nan
    else PFloat.fin (round2 (qMul (qDiv (qSub cur p) p) 100))) = _
  rw [if_neg h.ne', qSub_eq, qDiv_eq, qMul_eq]

theorem pandasRate_zero_pos {cur : ℚ} (h : 0 < cur) :
    pandasRate cur (some 0) = .inf := by
  show (if (0 : ℚ) = 0 then
      if 0 < qSub cur 0 then PFloat.inf
      else if qSub cur 0 < 0 then PFloat.ninf else PFloat.nan
    else PFloat.fin (round2 (qMul (qDiv (qSub cur 0) 0) 100))) = _
  rw [if_pos rfl, if_pos (by rw [qSub_eq]; simpa using h)]

theorem pandasRate_zero_neg {cur : ℚ} (h : cur < 0) :
    pandasRate cur (some 0) = .ninf := by
  show (if (0 : ℚ) = 0 then
      if 0 < qSub cur 0 then PFloat.inf
      else if qSub cur 0 < 0 then PFloat.ninf else PFloat.nan
    else PFloat.fin (round2 (qMul (qDiv (qSub cur 0) 0) 100))) = _
  rw [if_pos rfl, if_neg (by rw [qSub_eq]; simp only [sub_zero, not_lt]; linarith),
    if_pos (by rw [qSub_eq]; simpa using h)]

theorem pandasRate_zero_zero : pandasRate 0 (some 0) = .nan := by
  show (if (0 : ℚ) = 0 then
      if 0 < qSub 0 0 then PFloat.inf
      else if qSub 0 0 < 0 then PFloat.ninf else PFloat.nan
    else PFloat.fin (round2 (qMul (qDiv (qSub 0 0) 0) 100))) = _
  rw [if_pos rfl, if_neg (by rw [qSub_eq]; simp), if_neg (by rw [qSub_eq]; simp)]

theorem zip_take_length {α β : Type} :
    ∀ (hs : List α) (row : List β), hs.zip row = hs.zip (row.take hs.length)
  | [], _ => rfl
  | _ :: _, [] => rfl
  | a :: hs, b :: row => by
    simp only [List.zip_cons_cons, List.length_cons, List.take_succ_cons]
    rw [← zip_take_length hs row]

theorem filterMap_eq_map_of {α β : Type} (l : List α) (f : α → Option β) (g : α → β)
    (h : ∀ x ∈ l, f x = some (g x)) : l.filterMap f = l.map g := by
  induction l with
  | nil => rfl
  | cons a t ih =>
    rw [List.filterMap_cons, h a (List.mem_cons_self _ _), List.map_cons,
      ih (fun x hx => h x (List.mem_cons_of_mem a hx))]

/-! ### Claim theorems -/

/-- Claim C3, counterexample: the claim asserts that every cleaned numeric
value is non-negative, over both cleaning implementations. In
`DataCleaner.clean_numeric_columns` the input cell `-5` is not rewritten
(only the exact strings `''`/`nan`/`None`/`-` are), `pd.to_numeric` parses
the minus sign, and the cleaned value is `-5 < 0`. -/
theorem c3_counterexample :
    cleanNumericValDC (Cell.str "-5") = -5 ∧ cleanNumericValDC (Cell.str "-5") < 0 := by
  constructor <;> decide

/-- Claim C3 as amended: every cell of a known numeric column is cleaned to a
defined number by both implementations; a lone dash maps to zero and
unparseable text defaults to zero in both; thousands separators and spaces
are tolerated; and in `VahanDataProcessor._clean_numeric_columns` (which
rewrites every `-` to `0` before parsing) the cleaned value is additionally
always non-negative. -/
theorem c3_numeric_cleaning :
    (∀ c : Cell, 0 ≤ cleanNumericValDP c) ∧
    cleanNumericValDP (Cell.str "-") = 0 ∧ cleanNumericValDC (Cell.str "-") = 0 ∧
    cleanNumericValDP (Cell.str "1,234") = 1234 ∧
    cleanNumericValDC (Cell.str "1,234") = 1234 ∧
    cleanNumericValDP (Cell.str " 1 234 ") = 1234 ∧
    cleanNumericValDP (Cell.str "notanumber") = 0 ∧
    cleanNumericValDC (Cell.str "notanumber") = 0 :=
  ⟨cleanNumericValDP_nonneg, by decide, by decide, by decide, by decide, by decide,
    by decide, by decide⟩

/-- Claim C3, witness: the non-negativity statement applied at a concrete
scraped cell. -/
theorem c3_witness : 0 ≤ cleanNumericValDP (Cell.str "7,500") :=
  c3_numeric_cleaning.1 (Cell.str "7,500")

/-- Claim C7 (confirmed): a header block of three or more rows whose first
row leads with the spanning labels `S No` and `Vehicle Class` and whose last
row carries per-column category codes (each cell a known code, or one whose
text contains `TOTAL`) flattens to the two spanning labels followed by every
last-row label, with `TOTAL`-containing cells canonicalised to `TOTAL`. -/
theorem c7_header_flatten (c0 c1 : String) (r0tail : List String)
    (mids : List (List String)) (lastRow : List String)
    (hmids : 1 ≤ mids.length)
    (h0 : normalizeCell c0 = "S No") (h1 : normalizeCell c1 = "Vehicle Class")
    (hlast : ∀ cell ∈ lastRow, normalizeCell cell ∈ knownCodes12 ∨
      (hasSubStr "TOTAL" (upperStr (normalizeCell cell)) = true ∧
       normalizeCell cell ∉ (["S No", "Vehicle Class", ""] : List String))) :
    parseComplexTableHeaders ((c0 :: c1 :: r0tail) :: mids ++ [lastRow])
      = "S No" :: "Vehicle Class" :: lastRow.map canonLast := by
  unfold parseComplexTableHeaders
  rw [if_pos (by simp; omega)]
  have hhead : ((c0 :: c1 :: r0tail) :: mids ++ [lastRow]).headD [] = c0 :: c1 :: r0tail :=
    rfl
  have hlastrow : ((c0 :: c1 :: r0tail) :: mids ++ [lastRow]).getLastD [] = lastRow := by
    rw [List.getLastD_concat]
  rw [hhead, hlastrow]
  show ([c0, c1].filterMap fun cell =>
      let text := normalizeCell cell
      if hasSubStr "S No" text then some "S No"
      else if hasSubStr "Vehicle Class" text then some "Vehicle Class"
      else none) ++ (lastRow.filterMap fun cell =>
      let text := normalizeCell cell
      if text ≠ "" ∧ text ∉ (["S No", "Vehicle Class", ""] : List String) then
        if text ∈ knownCodes12 then some text
        else if hasSubStr "TOTAL" (upperStr text) then some "TOTAL"
        else if text.length ≤ 10 then some text
        else none
      else none)
    = "S No" :: "Vehicle Class" :: lastRow.map canonLast
  have hfirst : ([c0, c1].filterMap fun cell =>
      let text := normalizeCell cell
      if hasSubStr "S No" text then some "S No"
      else if hasSubStr "Vehicle Class" text then some "Vehicle Class"
      else none) = ["S No", "Vehicle Class"] := by
    simp only [List.filterMap_cons, List.filterMap_nil]
    rw [h0, h1]
    decide
  rw [hfirst]
  have hlastmap : (lastRow.filterMap fun cell =>
      let text := normalizeCell cell
      if text ≠ "" ∧ text ∉ (["S No", "Vehicle Class", ""] : List String) then
        if text ∈ knownCodes12 then some text
        else if hasSubStr "TOTAL" (upperStr text) then some "TOTAL"
        else if text.length ≤ 10 then some text
        else none
      else none) = lastRow.map canonLast := by
    refine filterMap_eq_map_of lastRow _ canonLast ?_
    intro cell hcell
    rcases hlast cell hcell with hcode | ⟨hsub, hnot⟩
    · have hguard : normalizeCell cell ≠ "" ∧
          normalizeCell cell ∉ (["S No", "Vehicle Class", ""] : List String) := by
        rcases (by simpa [knownCodes12] using hcode :
          normalizeCell cell = "2WIC" ∨ normalizeCell cell = "2WN" ∨
          normalizeCell cell = "2WT" ∨ normalizeCell cell = "TOTAL" ∨
          normalizeCell cell = "3WN" ∨ normalizeCell cell = "3WT" ∨
          normalizeCell cell = "LMV" ∨ normalizeCell cell = "MMV" ∨
          normalizeCell cell = "HMV" ∨ normalizeCell cell = "LGV" ∨
          normalizeCell cell = "MGV" ∨ normalizeCell cell = "HGV") with
          h | h | h | h | h | h | h | h | h | h | h | h <;> rw [h] <;> decide
      show (if _ ∧ _ then _ else none) = _
      rw [if_pos hguard, if_pos hcode]
      unfold canonLast
      rw [if_pos hcode]
    · have hguard : normalizeCell cell ≠ "" ∧
          normalizeCell cell ∉ (["S No", "Vehicle Class", ""] : List String) := by
        refine ⟨?_, hnot⟩
        intro hc
        exact hnot (by rw [hc]; decide)
      show (if _ ∧ _ then _ else none) = _
      rw [if_pos hguard]
      by_cases hcode : normalizeCell cell ∈ knownCodes12
      · rw [if_pos hcode]
        unfold canonLast
        rw [if_pos hcode]
      · rw [if_neg hcode, if_pos hsub]
        unfold canonLast
        rw [if_neg hcode]
  rw [hlastmap]
  rfl

/-- Claim C7, witness: the specification example. -/
theorem c7_witness :
    parseComplexTableHeaders
      [["S No", "Vehicle Class"], ["spanning"], ["2WIC", "2WN", "TOTAL"]]
      = ["S No", "Vehicle Class", "2WIC", "2WN", "TOTAL"] :=
  (c7_header_flatten "S No" "Vehicle Class" [] [["spanning"]] ["2WIC", "2WN", "TOTAL"]
    (by decide) (by decide) (by decide) (by decide)).trans (by decide)

/-- Claim C2, counterexample: `fetch_data` reports `success` without ever
comparing row lengths to the header count — a page whose single header row
has three labels and whose body row has two cells is returned as a success
with a short row. -/
theorem c2_counterexample :
    fetchData (.loaded [["A", "B", "C"]] [["1", "2"]])
      = { headers := ["A", "B", "C"], rows := [["1", "2"]], status := .success } ∧
    ((fetchData (.loaded [["A", "B", "C"]] [["1", "2"]])).rows.all
      (fun r => r.length = (fetchData (.loaded [["A", "B", "C"]] [["1", "2"]])).headers.length))
      = false := by
  constructor <;> decide

/-- Claim C2 as amended: when extraction succeeds, the returned rows are
exactly the non-spacer body rows (each kept row has at least one non-empty
cell) in on-page display order; their lengths are not constrained by the
header count — that invariant is only established downstream by the
orchestrator's tagging filter. -/
theorem c2_success_rows (hr br : List (List String)) :
    (fetchData (.loaded hr br)).status = .success ∧
    (fetchData (.loaded hr br)).rows.Sublist (br.map (fun row => row.map pyStrip)) ∧
    (∀ r ∈ (fetchData (.loaded hr br)).rows, ∃ c ∈ r, c ≠ "") := by
  refine ⟨rfl, List.filter_sublist _, ?_⟩
  intro r hr'
  have h := List.of_mem_filter hr'
  simpa [List.any_eq_true] using h

/-- Claim C2, witness: the amended statement at a concrete page with a
spacer row. -/
theorem c2_witness :
    (fetchData (.loaded [["H1", "H2"]] [["a", "b"], ["", " "]])).status = .success ∧
    (fetchData (.loaded [["H1", "H2"]] [["a", "b"], ["", " "]])).rows.Sublist
      ([["a", "b"], ["", " "]].map (fun row => row.map pyStrip)) ∧
    (∀ r ∈ (fetchData (.loaded [["H1", "H2"]] [["a", "b"], ["", " "]])).rows,
      ∃ c ∈ r, c ≠ "") :=
  c2_success_rows [["H1", "H2"]] [["a", "b"], ["", " "]]

/-- Claim C1, counterexample: in the total YoY computation
(`_calculate_yoy_growth`) the division is unguarded, so a year pair with
previous value `0` and current value `5` produces an infinite growth rate —
not `0` as the claim states for every growth computation. -/
theorem c1_counterexample :
    (calcYoyTotal [⟨"A", "S", "V", 2021, 0⟩, ⟨"A", "S", "V", 2022, 5⟩]).map
        (fun rec => (rec.previousValue, rec.growthRate))
      = [(none, PFloat.nan), (some 0, PFloat.inf)] ∧
    PFloat.inf ≠ PFloat.fin 0 := by
  constructor <;> decide

/-- Claim C1 as amended: the by-category, by-state and by-manufacturer
computations guard the division — a zero (or negative) previous value gives
growth rate `0`, and a positive previous value gives the rounded
`(current - previous) / previous * 100`. The total YoY computation has no
such guard: with a positive previous value it yields the same rounded
formula, but a zero previous value yields `inf` / `-inf` / `NaN` (by the sign
of the current value) under pandas float semantics, never `0` and never an
exception. -/
theorem c1_growth_zero_policy :
    (∀ (keyOf : CRow → String) (rows : List CRow),
      ∀ rec ∈ calcYoyByKey keyOf rows,
      (rec.previousValue = 0 → rec.growthRate = 0) ∧
      (0 < rec.previousValue → rec.growthRate =
        round2 ((rec.currentValue - rec.previousValue) / rec.previousValue * 100))) ∧
    (∀ rows : List CRow, ∀ rec ∈ calcManufacturerGrowth rows,
      (rec.previousValue = 0 → rec.growthRate = 0) ∧
      (0 < rec.previousValue → rec.growthRate =
        round2 ((rec.currentValue - rec.previousValue) / rec.previousValue * 100))) ∧
    (∀ rows : List CRow, ∀ rec ∈ calcYoyTotal rows, ∀ p : ℚ,
      rec.previousValue = some p →
      (0 < p → rec.growthRate = .fin (round2 ((rec.value - p) / p * 100))) ∧
      (p = 0 → 0 < rec.value → rec.growthRate = .inf) ∧
      (p = 0 → rec.value < 0 → rec.growthRate = .ninf) ∧
      (p = 0 → rec.value = 0 → rec.growthRate = .nan)) := by
  refine ⟨?_, ?_, ?_⟩
  · intro keyOf rows rec hrec
    obtain ⟨k, -, hrec⟩ := List.mem_flatMap.mp hrec
    obtain ⟨pr, -, rfl⟩ := List.mem_map.mp hrec
    constructor
    · intro h0
      show guardedRate pr.2.2 pr.1.2 = 0
      replace h0 : pr.1.2 = 0 := h0
      rw [guardedRate_eq, h0, if_neg (lt_irrefl 0)]
    · intro hpos
      show guardedRate pr.2.2 pr.1.2 = _
      replace hpos : 0 < pr.1.2 := hpos
      rw [guardedRate_eq, if_pos hpos]
  · intro rows rec hrec
    have hrec2 := (List.perm_insertionSort
      (fun a b : GrowthRec => b.growthRate ≤ a.growthRate)
      ((pdUnique (rows.map (·.vclass))).flatMap (manufacturerRecord rows))).subset hrec
    obtain ⟨m, -, hrec3⟩ := List.mem_flatMap.mp hrec2
    unfold manufacturerRecord at hrec3
    rcases hrev : (yearlyTotals (rows.filter (fun r => r.vclass = m))).reverse
      with _ | ⟨cur, l1⟩
    · rw [hrev] at hrec3
      simp at hrec3
    · rcases l1 with _ | ⟨prevp, t⟩
      · rw [hrev] at hrec3
        simp at hrec3
      · rw [hrev] at hrec3
        rw [List.mem_singleton] at hrec3
        subst hrec3
        constructor
        · intro h0
          show guardedRate cur.2 prevp.2 = 0
          replace h0 : prevp.2 = 0 := h0
          rw [guardedRate_eq, h0, if_neg (lt_irrefl 0)]
        · intro hpos
          show guardedRate cur.2 prevp.2 = _
          replace hpos : 0 < prevp.2 := hpos
          rw [guardedRate_eq, if_pos hpos]
  · intro rows rec hrec p hp
    obtain ⟨pr, -, rfl⟩ := List.mem_map.mp hrec
    replace hp : pr.2 = some p := hp
    refine ⟨?_, ?_, ?_, ?_⟩
    · intro hpos
      show pandasRate pr.1.2 pr.2 = PFloat.fin (round2 ((pr.1.2 - p) / p * 100))
      rw [hp]
      exact pandasRate_some_pos hpos
    · intro h0 hv
      replace hv : (0 : ℚ) < pr.1.2 := hv
      show pandasRate pr.1.2 pr.2 = PFloat.inf
      rw [hp, h0]
      exact pandasRate_zero_pos hv
    · intro h0 hv
      replace hv : pr.1.2 < 0 := hv
      show pandasRate pr.1.2 pr.2 = PFloat.ninf
      rw [hp, h0]
      exact pandasRate_zero_neg hv
    · intro h0 hv
      replace hv : pr.1.2 = 0 := hv
      show pandasRate pr.1.2 pr.2 = PFloat.nan
      rw [hp, h0, hv]
      exact pandasRate_zero_zero

/-- Claim C1, witness: a by-category record with previous value zero has
growth rate `0`. -/
theorem c1_witness :
    ({ key := "A", year := 2022, currentValue := 7, previousValue := 0,
       growthRate := guardedRate 7 0, growthAbs := qSub 7 0 } : GrowthRec).growthRate
      = 0 :=
  (c1_growth_zero_policy.1 (fun r => r.category)
    [⟨"A", "S", "V", 2021, 0⟩, ⟨"A", "S", "V", 2022, 7⟩] _ (by decide)).1 (by decide)

/-- Claim C4 (confirmed): for every data set and fixed grouping key `k` under
which `n ≥ 2` distinct years occur, the keyed YoY computation
(`_calculate_yoy_by_category` with `keyOf = Vehicle_Category`,
`_calculate_yoy_by_state` with `keyOf = State`) emits exactly `n - 1`
adjacent-period records for `k`, with their periods strictly ascending. -/
theorem c4_growth_record_count (keyOf : CRow → String) (rows : List CRow)
    (k : String) (n : ℕ)
    (hk : k ∈ pdUnique (rows.map keyOf))
    (hn : (distinctYears (rows.filter (fun r => keyOf r = k))).length = n)
    (h2 : 2 ≤ n) :
    ((calcYoyByKey keyOf rows).filter (fun rec => rec.key = k)).length = n - 1 ∧
    ((((calcYoyByKey keyOf rows).filter (fun rec => rec.key = k)).map
      (·.year)).Sorted (· < ·)) := by
  have hfil : (calcYoyByKey keyOf rows).filter (fun rec => rec.key = k)
      = adjacentRecords k (yearlyTotals (rows.filter (fun r => keyOf r = k))) := by
    unfold calcYoyByKey
    exact filter_flatMap_of_nodup (pdUnique_nodup _) hk _
      (fun k' rec hrec => adjacentRecords_key hrec)
  constructor
  · rw [hfil, length_adjacentRecords]
    have hlen : (yearlyTotals (rows.filter (fun r => keyOf r = k))).length = n := by
      unfold yearlyTotals
      rw [List.length_map, length_sortedYears, hn]
    rw [hlen]
  · rw [hfil, years_adjacentRecords]
    unfold yearlyTotals
    rw [← List.map_tail, List.map_map]
    have hid : (Prod.fst ∘ fun y =>
        (y, yearSum (rows.filter (fun r => keyOf r = k)) y)) = id := rfl
    rw [hid, List.map_id]
    exact List.Pairwise.sublist (List.tail_sublist _) (sortedYears_lt _)

/-- Claim C4, witness: a category with three distinct years yields exactly
two records, years ascending. -/
theorem c4_witness :
    ((calcYoyByKey (fun r => r.category)
      [⟨"2W", "Karnataka", "MOTOR CYCLE", 2021, 10⟩,
       ⟨"2W", "Karnataka", "MOTOR CYCLE", 2022, 25⟩,
       ⟨"2W", "Karnataka", "MOTOR CYCLE", 2023, 15⟩,
       ⟨"Other", "Delhi", "TRUCK", 2021, 5⟩]).filter
        (fun rec => rec.key = "2W")).length = 3 - 1 ∧
    ((((calcYoyByKey (fun r => r.category)
      [⟨"2W", "Karnataka", "MOTOR CYCLE", 2021, 10⟩,
       ⟨"2W", "Karnataka", "MOTOR CYCLE", 2022, 25⟩,
       ⟨"2W", "Karnataka", "MOTOR CYCLE", 2023, 15⟩,
       ⟨"Other", "Delhi", "TRUCK", 2021, 5⟩]).filter
        (fun rec => rec.key = "2W")).map (·.year)).Sorted (· < ·)) :=
  c4_growth_record_count (fun r => r.category) _ "2W" 3 (by decide) (by decide)
    (by decide)

/-- Claim C5, counterexample: neither cleaner is idempotent on every
non-empty input. In `VahanDataProcessor.clean_data` a numeric cell `0.00001`
parses to `1e-05` on the first pass; the second pass renders it as the
string `1e-05`, whose `-` the numeric cleaner rewrites to `0`, giving
`1e005 = 100000`. In `DataCleaner.clean_all` a non-empty frame whose rows
are all missing cleans to an empty frame, and the second run's
`validate_data` then raises (`DataProcessingError`, modelled `none`) instead
of returning that empty frame. -/
theorem c5_counterexample :
    (cleanData (cleanData
      [{ sNo := .num 1, vehicleClass := .str "CAR", numerics := [.str "0.00001"],
         filterYear := .str "2023", filterState := .str "Delhi(7)", year := .null,
         state := .null, quarter := .null, yearQuarter := .null,
         vehicleCategory := .null }])
    ≠ cleanData
      [{ sNo := .num 1, vehicleClass := .str "CAR", numerics := [.str "0.00001"],
         filterYear := .str "2023", filterState := .str "Delhi(7)", year := .null,
         state := .null, quarter := .null, yearQuarter := .null,
         vehicleCategory := .null }]) ∧
    cleanAllDC
      [{ sNo := .null, vehicleClass := .null, numerics := [.null],
         filterYear := .null, filterState := .null, year := .null,
         state := .null, vehicleCategory := .null }] = some [] ∧
    cleanAllDC ([] : List DCRow) = none :=
  ⟨by decide, by decide, rfl⟩

/-- Claim C5 as amended: neither cleaner is unconditionally idempotent, but
both are on stable data. `VahanDataProcessor.clean_data` is idempotent on
every data set whose numeric cells are left unchanged by a second numeric
cleaning — in particular on the integer registration counts, dashes, blanks
and unparseable text the portal serves — because every other column
transformation is idempotent (`Vehicle Class` strip/upper-casing) or a pure
function of the untouched `Filter_Year` / `Filter_State` columns; it fails
on cleaned values that re-render in scientific notation (see the
counterexample). `DataCleaner.clean_all` returns its output unchanged
whenever that output is non-empty (else `validate_data` raises, see the
counterexample), its numeric and text cells re-clean to themselves (float
`str` round-trips; stripped/title-cased text that is not a sentinel such as
`'none'`), its `State` column agrees with re-extraction from the current
`Filter_State` (which fails when a missing `Filter_State` was filled to
`'Unknown State'` after `State` was extracted as the string `'nan'`), and no
two rows collide on the `(State, Year, Vehicle Class)` key after the
missing-value fill. -/
theorem c5_clean_idempotent (rows : List Row)
    (h : ∀ r ∈ rows, ∀ c ∈ r.numerics,
      cleanNumericCellDP (cleanNumericCellDP c) = cleanNumericCellDP c)
    (rowsC out : List DCRow)
    (hclean : cleanAllDC rowsC = some out) (hne : out ≠ [])
    (hnum : ∀ r ∈ out, ∀ c ∈ r.numerics, cleanNumericCellDC c = c)
    (hsn : ∀ r ∈ out, cleanTextCellDC false r.sNo = r.sNo)
    (hvc : ∀ r ∈ out, cleanTextCellDC true r.vehicleClass = r.vehicleClass)
    (hfy : ∀ r ∈ out, cleanTextCellDC false r.filterYear = r.filterYear)
    (hfs : ∀ r ∈ out, cleanTextCellDC true r.filterState = r.filterState)
    (hst : ∀ r ∈ out, r.state = stateCellDC r.filterState)
    (hkey : (out.map dcKey).Nodup) :
    cleanData (cleanData rows) = cleanData rows ∧ cleanAllDC out = some out :=
  ⟨cleanData_idem rows h,
   cleanAllDC_idem rowsC out hclean hne hnum hsn hvc hfy hfs hst hkey⟩

/-- Claim C5, witness: idempotence applied to a concrete two-row data set
with comma-grouped, dashed, missing and unparseable numeric cells
(`clean_data`), and to the `clean_all` output of a one-row frame with a
comma-grouped count, a parenthesised state and a title-cased class. -/
theorem c5_witness :
    cleanData (cleanData
      [{ sNo := .num 1, vehicleClass := .str "MOTOR CYCLE",
         numerics := [.str "1,234", .str "-", .null], filterYear := .str "2023",
         filterState := .str "Karnataka(29)", year := .null, state := .null,
         quarter := .null, yearQuarter := .null, vehicleCategory := .null },
       { sNo := .num 2, vehicleClass := .str "truck",
         numerics := [.str "88", .str "oops", .str " 5 "], filterYear := .str "2022",
         filterState := .str "Delhi(7)", year := .null, state := .null,
         quarter := .null, yearQuarter := .null, vehicleCategory := .null }])
    = cleanData
      [{ sNo := .num 1, vehicleClass := .str "MOTOR CYCLE",
         numerics := [.str "1,234", .str "-", .null], filterYear := .str "2023",
         filterState := .str "Karnataka(29)", year := .null, state := .null,
         quarter := .null, yearQuarter := .null, vehicleCategory := .null },
       { sNo := .num 2, vehicleClass := .str "truck",
         numerics := [.str "88", .str "oops", .str " 5 "], filterYear := .str "2022",
         filterState := .str "Delhi(7)", year := .null, state := .null,
         quarter := .null, yearQuarter := .null, vehicleCategory := .null }] ∧
    cleanAllDC
      [{ sNo := .str "1", vehicleClass := .str "Motor Cycle",
         numerics := [.num 1234], filterYear := .str "2023",
         filterState := .str "Karnataka(29)", year := .num 2023,
         state := .str "Karnataka", vehicleCategory := .str "Motor Cycle" }]
    = some
      [{ sNo := .str "1", vehicleClass := .str "Motor Cycle",
         numerics := [.num 1234], filterYear := .str "2023",
         filterState := .str "Karnataka(29)", year := .num 2023,
         state := .str "Karnataka", vehicleCategory := .str "Motor Cycle" }] :=
  c5_clean_idempotent _ (by decide)
    [{ sNo := .str "1", vehicleClass := .str "Motor Cycle",
       numerics := [.str "1,234"], filterYear := .str "2023",
       filterState := .str "Karnataka(29)", year := .null, state := .null,
       vehicleCategory := .null }]
    [{ sNo := .str "1", vehicleClass := .str "Motor Cycle",
       numerics := [.num 1234], filterYear := .str "2023",
       filterState := .str "Karnataka(29)", year := .num 2023,
       state := .str "Karnataka", vehicleCategory := .str "Motor Cycle" }]
    (by decide) (by decide) (by decide) (by decide) (by decide) (by decide)
    (by decide) (by decide) (by decide)

/-- Claim C6 (confirmed): a combination whose filter application raises or
whose extraction does not report `success` contributes nothing and does not
abort the sweep — the orchestrator returns exactly the tagged rows of the
surrounding combinations — and a sweep in which no combination yields data
returns the explicitly empty result, not an exception. -/
theorem c6_failure_resilience (env : Filters → FetchOutcome) (ts : String)
    (xs ys combos0 : List Filters) (bad : Filters)
    (hbad : (∃ msg, env bad = .exn msg) ∨
      (∃ t, env bad = .ok t ∧ t.status ≠ .success))
    (hnone : ∀ c ∈ combos0, comboRows env ts c = []) :
    scrapeMultipleCombinations env ts (xs ++ bad :: ys)
      = scrapeMultipleCombinations env ts xs ++ scrapeMultipleCombinations env ts ys ∧
    scrapeMultipleCombinations env ts combos0 = [] := by
  have hb : comboRows env ts bad = [] := by
    rcases hbad with ⟨msg, h⟩ | ⟨t, h, hs⟩
    · unfold comboRows
      rw [h]
    · unfold comboRows
      rw [h]
      exact if_neg (fun hc => hs hc.1)
  constructor
  · unfold scrapeMultipleCombinations
    rw [List.flatMap_append, List.flatMap_cons, hb, List.nil_append]
  · induction combos0 with
    | nil => rfl
    | cons a t ih =>
      unfold scrapeMultipleCombinations
      rw [List.flatMap_cons, hnone a (List.mem_cons_self _ _), List.nil_append]
      exact ih (fun c hc => hnone c (List.mem_cons_of_mem a hc))

/-- Claim C6, witness: a sweep whose middle combination raises is the
concatenation of the two successful halves, and a sweep of two raising
combinations is empty. -/
theorem c6_witness :
    scrapeMultipleCombinations
      (fun c => if c = ([] : Filters) then FetchOutcome.exn "boom"
        else .ok { headers := ["H"], rows := [["1"]], status := .success })
      "2024-01-01"
      (([("Y", "2023")] : Filters) :: ([] : Filters) :: [([("Y", "2024")] : Filters)])
      = scrapeMultipleCombinations
          (fun c => if c = ([] : Filters) then FetchOutcome.exn "boom"
            else .ok { headers := ["H"], rows := [["1"]], status := .success })
          "2024-01-01" [([("Y", "2023")] : Filters)]
        ++ scrapeMultipleCombinations
            (fun c => if c = ([] : Filters) then FetchOutcome.exn "boom"
              else .ok { headers := ["H"], rows := [["1"]], status := .success })
            "2024-01-01" [([("Y", "2024")] : Filters)] ∧
    scrapeMultipleCombinations
      (fun c => if c = ([] : Filters) then FetchOutcome.exn "boom"
        else .ok { headers := ["H"], rows := [["1"]], status := .success })
      "2024-01-01" [([] : Filters), ([] : Filters)] = [] :=
  c6_failure_resilience
    (fun c => if c = ([] : Filters) then FetchOutcome.exn "boom"
      else .ok { headers := ["H"], rows := [["1"]], status := .success })
    "2024-01-01" [([("Y", "2023")] : Filters)] [([("Y", "2024")] : Filters)]
    [([] : Filters), ([] : Filters)] ([] : Filters)
    (Or.inl ⟨"boom", rfl⟩) (by decide)

/-- Claim C10 (confirmed): for a combination whose extraction succeeded with
data, the orchestrator tags exactly the raw rows having at least as many
cells as there are headers — shorter rows are dropped (the output length is
the number of surviving rows) — and pairing a kept row with the headers via
`zip` discards every cell beyond the header count. -/
theorem c10_row_tagging (env : Filters → FetchOutcome) (ts : String)
    (filters : Filters) (t : ExtractedTable)
    (henv : env filters = .ok t) (hst : t.status = .success) (hrw : t.rows ≠ []) :
    comboRows env ts filters
      = (t.rows.filter (fun row => t.headers.length ≤ row.length)).map
          (fun row => tagRow t.headers filters ts (row.take t.headers.length)) ∧
    (comboRows env ts filters).length
      = (t.rows.filter (fun row => t.headers.length ≤ row.length)).length := by
  have hc : comboRows env ts filters
      = (t.rows.filter (fun row => t.headers.length ≤ row.length)).map
          (tagRow t.headers filters ts) := by
    unfold comboRows
    rw [henv]
    exact if_pos ⟨hst, hrw⟩
  constructor
  · rw [hc]
    refine List.map_congr_left ?_
    intro row _
    unfold tagRow
    rw [← zip_take_length]
  · rw [hc, List.length_map]

/-- Claim C10, witness: with headers `["A", "B"]`, the 3-cell row is kept
with its third cell discarded by `zip` and the 1-cell row is dropped. -/
theorem c10_witness :
    comboRows
      (fun _ => FetchOutcome.ok
        { headers := ["A", "B"], rows := [["1", "2", "3"], ["x"]], status := .success })
      "ts" ([("Year", "2023")] : Filters)
      = [[("A", "1"), ("B", "2"), ("Filter_Year", "2023"), ("Scraped_Date", "ts")]] :=
  ((c10_row_tagging
    (fun _ => FetchOutcome.ok
      { headers := ["A", "B"], rows := [["1", "2", "3"], ["x"]], status := .success })
    "ts" ([("Year", "2023")] : Filters)
    { headers := ["A", "B"], rows := [["1", "2", "3"], ["x"]], status := .success }
    rfl rfl (by decide)).1).trans (by decide)

/-- Claim C8 (confirmed): when the option panel never becomes visible, the
enumerator makes exactly 3 attempts, closing other open panels before each,
and returns the single-element timeout sentinel instead of raising; batch
enumeration assigns every dropdown label an entry regardless of individual
failures. -/
theorem c8_dropdown_timeout (env : ℕ → AttemptOutcome) (b : String)
    (envs : String → ℕ → AttemptOutcome) (dropdownMap : List (String × String))
    (henv : ∀ a, env a = .panelTimeout) :
    fetchOneMenuItems env b
      = ([timeoutMsg (normBaseId b)], 3, List.replicate 3 .closePanels) ∧
    (scrapeDropdowns envs dropdownMap).map Prod.fst = dropdownMap.map Prod.fst := by
  constructor
  · show fetchMenuGo env (normBaseId b) 3 3 0 = _
    simp [fetchMenuGo, henv, List.replicate]
  · unfold scrapeDropdowns
    rw [List.map_map]
    rfl

/-- Claim C8, witness: the always-timeout panel at a concrete dropdown id
ending in `_input`, and a concrete batch of two dropdowns. -/
theorem c8_witness :
    fetchOneMenuItems (fun _ => AttemptOutcome.panelTimeout) "j_year_input"
      = ([timeoutMsg (normBaseId "j_year_input")], 3, List.replicate 3 .closePanels) ∧
    (scrapeDropdowns (fun _ _ => AttemptOutcome.panelTimeout)
      [("Year", "j_year_input"), ("State", "j_state")]).map Prod.fst
      = ([("Year", "j_year_input"), ("State", "j_state")] :
          List (String × String)).map Prod.fst :=
  c8_dropdown_timeout (fun _ => AttemptOutcome.panelTimeout) "j_year_input"
    (fun _ _ => AttemptOutcome.panelTimeout)
    [("Year", "j_year_input"), ("State", "j_state")] (fun _ => rfl)

/-- Claim C9 (confirmed): grouping into `n ≥ 2` yearly periods with a
positive start value (and a non-negative end value, so that the real power
is the one the code computes), the compound growth rate is
`round(((end / start) ^ (1 / (n - 1)) - 1) * 100, 2)` where `n` is the
number of periods (`num_periods = len(period_data) - 1` exponent base);
fewer than two periods, or a non-positive start value, return `0.0` instead
of raising. -/
theorem c9_cagr (rows rows1 rows2 : List CRow)
    (hn : 2 ≤ (yearlyTotals rows).length)
    (hstart : 0 < ((yearlyTotals rows).headD (0, 0)).2)
    (hend : 0 ≤ ((yearlyTotals rows).getLastD (0, 0)).2)
    (hlen1 : (yearlyTotals rows1).length < 2)
    (hstart2 : ((yearlyTotals rows2).headD (0, 0)).2 ≤ 0) :
    calculateCompoundGrowthRate rows
      = round2R ((((((yearlyTotals rows).getLastD (0, 0)).2 : ℝ)
          / (((yearlyTotals rows).headD (0, 0)).2 : ℝ))
            ^ ((1 : ℝ) / (((yearlyTotals rows).length - 1 : ℕ) : ℝ)) - 1) * 100) ∧
    calculateCompoundGrowthRate rows1 = 0 ∧
    calculateCompoundGrowthRate rows2 = 0 := by
  refine ⟨?_, ?_, ?_⟩
  · simp only [calculateCompoundGrowthRate]
    rw [if_neg (by omega), if_neg (not_le.mpr hstart),
      if_neg (fun hc => (not_lt.mpr hend) hc.1)]
  · simp only [calculateCompoundGrowthRate]
    rw [if_pos hlen1]
  · simp only [calculateCompoundGrowthRate]
    by_cases h : (yearlyTotals rows2).length < 2
    · rw [if_pos h]
    · rw [if_neg h, if_pos hstart2]

/-- Claim C9, witness: yearly totals 2021 → 100, 2022 → 50, 2023 → 121 give
exactly 10 (the specification's `start=100, end=121` over two compounding
periods example), the empty data set gives 0, and a zero start value gives
0. -/
theorem c9_witness :
    calculateCompoundGrowthRate
      [{ category := "2W", state := "KA", vclass := "M", year := 2021, total := 100 },
       { category := "2W", state := "KA", vclass := "M", year := 2022, total := 50 },
       { category := "2W", state := "KA", vclass := "M", year := 2023, total := 121 }]
      = 10 ∧
    calculateCompoundGrowthRate [] = 0 ∧
    calculateCompoundGrowthRate
      [{ category := "2W", state := "KA", vclass := "M", year := 2021, total := 0 },
       { category := "2W", state := "KA", vclass := "M", year := 2022, total := 5 }]
      = 0 := by
  have h := c9_cagr
    [{ category := "2W", state := "KA", vclass := "M", year := 2021, total := 100 },
     { category := "2W", state := "KA", vclass := "M", year := 2022, total := 50 },
     { category := "2W", state := "KA", vclass := "M", year := 2023, total := 121 }]
    []
    [{ category := "2W", state := "KA", vclass := "M", year := 2021, total := 0 },
     { category := "2W", state := "KA", vclass := "M", year := 2022, total := 5 }]
    (by decide) (by decide) (by decide) (by decide) (by decide)
  refine ⟨h.1.trans ?_, h.2.1, h.2.2⟩
  have hlast : ((yearlyTotals
      [{ category := "2W", state := "KA", vclass := "M", year := 2021, total := 100 },
       { category := "2W", state := "KA", vclass := "M", year := 2022, total := 50 },
       { category := "2W", state := "KA", vclass := "M", year := 2023, total := 121 }]).getLastD
        (0, 0)).2 = (121 : ℚ) := by decide
  have hhead : ((yearlyTotals
      [{ category := "2W", state := "KA", vclass := "M", year := 2021, total := 100 },
       { category := "2W", state := "KA", vclass := "M", year := 2022, total := 50 },
       { category := "2W", state := "KA", vclass := "M", year := 2023, total := 121 }]).headD
        (0, 0)).2 = (100 : ℚ) := by decide
  have hlen : (yearlyTotals
      [{ category := "2W", state := "KA", vclass := "M", year := 2021, total := 100 },
       { category := "2W", state := "KA", vclass := "M", year := 2022, total := 50 },
       { category := "2W", state := "KA", vclass := "M", year := 2023, total := 121 }]).length - 1
      = (2 : ℕ) := by decide
  rw [hlast, hhead, hlen]
  have hcast : (((121 : ℚ) : ℝ) / ((100 : ℚ) : ℝ)) = ((121 : ℝ) / 100) := by
    norm_num
  rw [hcast]
  have hbase : ((121 : ℝ) / 100) = ((11 : ℝ) / 10) ^ ((2 : ℕ) : ℝ) := by
    rw [Real.rpow_natCast]
    norm_num
  have hexp : ((1 : ℝ) / ((2 : ℕ) : ℝ)) = ((1 : ℝ) / 2) := by norm_num
  rw [hexp, hbase, ← Real.rpow_mul (by norm_num)]
  have h21 : ((2 : ℕ) : ℝ) * ((1 : ℝ) / 2) = 1 := by norm_num
  rw [h21, Real.rpow_one]
  have hval : (((11 : ℝ) / 10 - 1) * 100) = 10 := by norm_num
  rw [hval]
  unfold round2R
  have hround : round ((10 : ℝ) * 100) = (1000 : ℤ) := by
    rw [show ((10 : ℝ) * 100) = ((1000 : ℤ) : ℝ) by norm_num]
    exact round_intCast 1000
  rw [hround]
  norm_num

end Vahan
